import Mathlib

/-!
Verification development for the rsip-dns lazy resolution pipeline
(RFC 3263 target selection over DNS: NAPTR → SRV → A/AAAA).

The Rust sources under src/ are shallowly embedded as executable Lean
definitions.  Asynchronous methods become pure functions that additionally
return the list of DNS queries they issued; the pluggable DNS client becomes a
structure of pure lookup functions (failure and absence both collapse to
`none`, matching the `Option`/`Err` handling in the source, where only the
success/failure distinction is observable to the core).

Parts of the crate that are not present under src/ (the `ResolvableVec`
combinator, `ResolvableIpAddr`, `NaptrRecord`'s iteration order, the
NAPTR-entry → SrvDomain conversion and the `Context` accessors) are modelled
from the specification; each such definition carries a doc comment starting
with `Modelled from the spec:`.
-/

namespace RsipDns

abbrev Domain := String
abbrev IpAddr := String
abbrev Port := Nat

/-- The transport enumeration used by the crate (spec §3 Target:
UDP, TCP, TLS, WS, WSS, SCTP, TLS-SCTP). -/
inductive Transport where
  | udp
  | tcp
  | tls
  | sctp
  | ws
  | wss
  | tlsSctp
deriving DecidableEq

/-- Modelled from the spec: the wire protocol underlying a transport
(§4.7 builds SRV fallback domains with `transport.protocol()`; §3 lists the
proto tokens udp, tcp, sctp, ws).  The TLS variants ride on their insecure
carrier protocol. -/
def Transport.protocol : Transport → Transport
  | .tls => .tcp
  | .wss => .ws
  | .tlsSctp => .sctp
  | t => t

/-- Modelled from the spec §4.7: default port is 5061 for TLS variants and
5060 otherwise. -/
def Transport.default_port : Transport → Port
  | .tls => 5061
  | .wss => 5061
  | .tlsSctp => 5061
  | _ => 5060

/-- Modelled from the spec §4.7: default transport is TLS when secure. -/
def Transport.default_secure_transport : Transport := .tls

/-- Modelled from the spec §4.7: default transport is UDP when insecure. -/
def Transport.default_insecure_transport : Transport := .udp

/-- Modelled from the spec: the TLS-family (secure) transports. -/
def Transport.is_secure : Transport → Bool
  | .tls => true
  | .wss => true
  | .tlsSctp => true
  | _ => false

/-- src/target.rs: the `(ip, port, transport, ttl)` tuple the core emits. -/
structure Target where
  ip_addr : IpAddr
  port : Port
  transport : Transport
  ttl : Nat
deriving DecidableEq

/-- src/target.rs, `From<(IpAddr, Port, Transport)> for Target`:
a Target built without an explicit TTL carries ttl = 300. -/
def Target.ofTriple (ip : IpAddr) (port : Port) (transport : Transport) : Target :=
  { ip_addr := ip, port := port, transport := transport, ttl := 300 }

/-- The SrvDomain triple `(secure, protocol, domain)` (spec §3). -/
structure SrvDomain where
  secure : Bool
  protocol : Transport
  domain : Domain
deriving DecidableEq

/-- Modelled from the spec §3 (records/srv_domain.rs is not under src/):
the transport of an SRV domain is the secure variant of its protocol when
`secure` is set, else the protocol itself. -/
def SrvDomain.transport (d : SrvDomain) : Transport :=
  if d.secure then
    match d.protocol with
    | .tcp => .tls
    | .ws => .wss
    | .sctp => .tlsSctp
    | p => p
  else d.protocol

/-- src/records/srv_record.rs `SrvEntry`.  `priority` and `weight` are u16 in
the source; they are embedded as `Nat` and the u16 truncation is made explicit
in `total_weight`. -/
structure SrvEntry where
  priority : Nat
  weight : Nat
  port : Port
  target : Domain
deriving DecidableEq

/-- src/records (AddrRecord; declared in the records module, field layout
visible throughout src/ and its tests): domain, ttl, ip_addrs. -/
structure AddrRecord where
  domain : Domain
  ttl : Nat
  ip_addrs : List IpAddr
deriving DecidableEq

/-- src/records/srv_record.rs `SrvRecord`.  The `HashMap<Domain, AddrRecord>`
of ADDITIONAL-section glue is embedded as an association list queried with
`assocFind`. -/
structure SrvRecord where
  entries : List SrvEntry
  domain : SrvDomain
  ttl : Nat
  additional_hosts : List (Domain × AddrRecord)
deriving DecidableEq

/-- Association-list lookup, standing in for `HashMap::get`. -/
def assocFind [DecidableEq κ] (l : List (κ × ν)) (k : κ) : Option ν :=
  (l.find? fun p => decide (p.1 = k)).map fun p => p.2

/-- src/records/srv_record.rs `SrvEntry::total_weight`:
`(10000 - self.priority) + self.weight` computed in u16 arithmetic.
The fields are u16 in the source, so both the subtraction and the addition
wrap modulo 2^16 (release-mode semantics); the wrap is made explicit here. -/
def SrvEntry.total_weight (e : SrvEntry) : Nat :=
  ((10000 + 65536 - e.priority % 65536) % 65536 + e.weight % 65536) % 65536

/-- Stable insertion relative to a `may-come-before` test: `x` is placed
before the first element `y` with `le x y`. -/
def insertOrdered (le : α → α → Bool) (x : α) : List α → List α
  | [] => [x]
  | y :: ys => if le x y then x :: y :: ys else y :: insertOrdered le x ys

/-- Stable sort by repeated ordered insertion (elements earlier in the input
are inserted later, and land before elements they tie with), matching the
stability guarantee of Rust's `sort_by_key`. -/
def sortOrdered (le : α → α → Bool) : List α → List α
  | [] => []
  | x :: xs => insertOrdered le x (sortOrdered le xs)

/-- src/records/srv_record.rs `SrvRecord::sorted`:
`self.entries.sort_by_key(|b| Reverse(b.total_weight()))` — a stable sort in
descending order of `total_weight`. -/
def SrvRecord.sorted (r : SrvRecord) : SrvRecord :=
  { r with entries := sortOrdered (fun a b => decide (b.total_weight ≤ a.total_weight)) r.entries }

/-- src/records/srv_record.rs `SrvRecord::domains_with_ports`. -/
def SrvRecord.domains_with_ports (r : SrvRecord) : List (Domain × Port) :=
  r.entries.map fun e => (e.target, e.port)

/-- src/records/srv_record.rs `SrvRecord::get_additional_for_target`. -/
def SrvRecord.get_additional_for_target (r : SrvRecord) (t : Domain) : Option AddrRecord :=
  assocFind r.additional_hosts t

/-- src/records/srv_record.rs `SrvRecord::transport`. -/
def SrvRecord.transport (r : SrvRecord) : Transport :=
  r.domain.transport

/-- NAPTR flags (spec §3): S, A, U, P, Other(bytes). -/
inductive NaptrFlags where
  | S
  | A
  | U
  | P
  | Other (bytes : List Nat)
deriving DecidableEq

/-- NAPTR services (spec §3). -/
inductive NaptrServices where
  | SipD2t
  | SipD2u
  | SipD2s
  | SipD2w
  | SipsD2t
  | SipsD2u
  | SipsD2s
  | SipsD2w
  | Other (s : String)
deriving DecidableEq

/-- Modelled from the spec §3 (the services enumeration lives in the external
`rsip` crate): "a services variant carries exactly one transport", the sip
variants carrying the insecure transport for their proto token and the sips
variants its TLS-family counterpart; `Other` carries none. -/
def NaptrServices.transport : NaptrServices → Option Transport
  | .SipD2t => some .tcp
  | .SipD2u => some .udp
  | .SipD2s => some .sctp
  | .SipD2w => some .ws
  | .SipsD2t => some .tls
  | .SipsD2u => some .tls
  | .SipsD2s => some .tlsSctp
  | .SipsD2w => some .wss
  | .Other _ => none

/-- Modelled from the spec §3: the sips services variants are the secure ones. -/
def NaptrServices.secure : NaptrServices → Bool
  | .SipsD2t => true
  | .SipsD2u => true
  | .SipsD2s => true
  | .SipsD2w => true
  | _ => false

/-- NaptrEntry (spec §3; constructed throughout src/ tests with exactly these
fields). -/
structure NaptrEntry where
  order : Nat
  preference : Nat
  flags : NaptrFlags
  services : NaptrServices
  regexp : List Nat
  replacement : Domain
deriving DecidableEq

/-- NaptrRecord (spec §3; constructed in src/ tests with exactly these
fields).  `additional_srvs : HashMap<SrvDomain, SrvRecord>` is embedded as an
association list. -/
structure NaptrRecord where
  domain : Domain
  ttl : Nat
  entries : List NaptrEntry
  additional_srvs : List (SrvDomain × SrvRecord)
deriving DecidableEq

/-- The lexicographic (order, preference) comparison on NAPTR entries. -/
def naptrEntryLe (a b : NaptrEntry) : Bool :=
  decide (a.order < b.order) ||
    (decide (a.order = b.order) && decide (a.preference ≤ b.preference))

/-- Modelled from the spec: `NaptrRecord::iter` (records/naptr_record.rs is
not under src/).  Spec §4.5: "Entries must be visited in ascending `order`,
ties broken by ascending `preference`, ties broken by input order" — a stable
sort by the lexicographic (order, preference) key. -/
def NaptrRecord.iter (r : NaptrRecord) : List NaptrEntry :=
  sortOrdered naptrEntryLe r.entries

/-- src (NaptrRecord::get_additional_srv, declared in the records module):
lookup of a pre-fetched SRV record by SrvDomain. -/
def NaptrRecord.get_additional_srv (r : NaptrRecord) (d : SrvDomain) : Option SrvRecord :=
  assocFind r.additional_srvs d

/-- Modelled from the spec: `TryFrom<NaptrEntry> for SrvDomain`
(records/naptr_record.rs is not under src/).  Spec §4.5: each surviving entry
is "convert[ed] to an SrvDomain from the `replacement` field"; no failure
mode is described, so the conversion is total, carrying the entry's secure
flag and the wire protocol of its service transport together with the
replacement domain. -/
def NaptrEntry.srvDomain (e : NaptrEntry) : SrvDomain :=
  { secure := e.services.secure
    protocol := (e.services.transport.getD .udp).protocol
    domain := e.replacement }

/-- The DNS client contract of spec §6.1, as pure functions.
`ip_lookup`'s `Err` outcomes are collapsed to `none`: the core only ever
branches on `Ok` vs `Err` (src/resolvables/resolvable_addr_record.rs). -/
structure DnsClient where
  naptr_lookup : Domain → Option NaptrRecord
  srv_lookup : SrvDomain → Option SrvRecord
  ip_lookup : Domain → Option AddrRecord

/-- A DNS query issued by the pipeline, for counting calls on a recording
client (spec §8, property 3). -/
inductive Query where
  | naptrQ (d : Domain)
  | srvQ (d : SrvDomain)
  | ipQ (d : Domain)
deriving DecidableEq

/-- src/resolvables (ResolvableState, declared in the resolvables module):
Unset / Empty / NonEmpty. -/
inductive ResolvableState where
  | Unset
  | Empty
  | NonEmpty
deriving DecidableEq

/-- Modelled from the spec: the `ResolvableVec` combinator
(resolvables/resolvable_vec.rs is not under src/).  Spec §4.6: a vector of
child resolvables drained left-to-right.  Its three constructors mirror the
three ways the source builds it: `Default::default()` (`unset`, never
initialized), `ResolvableVec::empty()` (`empty`, the result of an
initialization whose lookup failed or was absent), and
`ResolvableVec::non_empty(vec)` (`active`). -/
inductive RVec (σ : Type) where
  | unset
  | empty
  | active (children : List σ)
deriving DecidableEq

/-- `ResolvableVec::is_unset`: true only before first initialization (were it
also true of `empty`, every `resolve_next` after a failed lookup would re-issue
the lookup, contradicting the lazy-initialization contract of spec §4.1). -/
def RVec.is_unset : RVec σ → Bool
  | .unset => true
  | _ => false

/-- Modelled from the spec: `ResolvableVec`'s observable state.  `active`
reports NonEmpty while any child remains to be drained (children are removed
once they return `none`) and Empty afterwards (spec §4.6).  A failed
initialization (`empty`) reports `Unset`: the state-transition inspection in
src/lookup/just_domain_lookup.rs (lines 136–152) documents that after a failed
NAPTR lookup the observed state is "still Unset" — "NAPTR failed (still
Unset) or never had records, try SRV fallbacks" — and spec §4.7 likewise
distinguishes a NAPTR that "never observed records" (→ fallback) from one
that initialized and drained to Empty (→ terminate). -/
def RVec.state : RVec σ → ResolvableState
  | .unset => .Unset
  | .empty => .Unset
  | .active [] => .Empty
  | .active (_ :: _) => .NonEmpty

/-- Modelled from the spec §4.6: drive the children left-to-right, draining
child i fully before advancing to child i+1; a child that returns `none` is
removed (exhaustion is terminal, so it can never produce again).  Queries
issued by drained children are collected. -/
def rvecGo (step : σ → Option Target × σ × List Query) :
    List σ → Option Target × RVec σ × List Query
  | [] => (none, .active [], [])
  | c :: rest =>
    match step c with
    | (some t, c2, qs) => (some t, .active (c2 :: rest), qs)
    | (none, _, qs) =>
      match rvecGo step rest with
      | (t, v, qs2) => (t, v, qs ++ qs2)

/-- Modelled from the spec §4.6: `ResolvableVec::resolve_next`.  An `unset`
vector cannot initialize itself (initialization is its owner's duty) and an
`empty` one has nothing to produce. -/
def RVec.resolve_next (step : σ → Option Target × σ × List Query) :
    RVec σ → Option Target × RVec σ × List Query
  | .unset => (none, .unset, [])
  | .empty => (none, .empty, [])
  | .active cs => rvecGo step cs

/-- Modelled from the spec §4.2 and src/tests/resolvables/resolvable_ip_addr.rs:
the IP-literal resolvable emits exactly one Target on the first call and
`none` thereafter, never performing I/O. -/
structure ResolvableIpAddr where
  ip_addr : IpAddr
  port : Port
  transport : Transport
  ttl : Nat
  spent : Bool
deriving DecidableEq

/-- `ResolvableIpAddr::new` — default TTL 300 (tests assert it). -/
def ResolvableIpAddr.new (ip : IpAddr) (port : Port) (transport : Transport) :
    ResolvableIpAddr :=
  { ip_addr := ip, port := port, transport := transport, ttl := 300, spent := false }

/-- `ResolvableIpAddr::new_with_ttl`. -/
def ResolvableIpAddr.new_with_ttl (ip : IpAddr) (port : Port) (transport : Transport)
    (ttl : Nat) : ResolvableIpAddr :=
  { ip_addr := ip, port := port, transport := transport, ttl := ttl, spent := false }

/-- Modelled from the spec §4.2: one target, then exhausted. -/
def ResolvableIpAddr.resolve_next (r : ResolvableIpAddr) :
    Option Target × ResolvableIpAddr :=
  if r.spent then (none, r)
  else (some { ip_addr := r.ip_addr, port := r.port, transport := r.transport, ttl := r.ttl },
    { r with spent := true })

def ResolvableIpAddr.state (r : ResolvableIpAddr) : ResolvableState :=
  if r.spent then .Empty else .NonEmpty

/-- Step adapter: an IP-literal resolvable never issues queries. -/
def ripStep (rip : ResolvableIpAddr) : Option Target × ResolvableIpAddr × List Query :=
  match rip.resolve_next with
  | (t, rip2) => (t, rip2, [])

/-- src/resolvables/resolvable_addr_record.rs `ResolvableAddrRecord`.
The `dns_client` field is not stored: every resolvable in the tree carries a
clone of the same client (spec §5), so the client is passed at each
`resolve_next` call instead. -/
structure ResolvableAddrRecord where
  domain : Domain
  port : Port
  transport : Transport
  resolvable_ip_addrs : RVec ResolvableIpAddr
deriving DecidableEq

/-- `ResolvableAddrRecord::new`. -/
def ResolvableAddrRecord.new (domain : Domain) (port : Port) (transport : Transport) :
    ResolvableAddrRecord :=
  { domain := domain, port := port, transport := transport, resolvable_ip_addrs := .unset }

/-- `ResolvableAddrRecord::from_resolvable_ip` — pre-resolved, no pending I/O. -/
def ResolvableAddrRecord.from_resolvable_ip (domain : Domain) (port : Port)
    (transport : Transport) (rip : ResolvableIpAddr) : ResolvableAddrRecord :=
  { domain := domain, port := port, transport := transport,
    resolvable_ip_addrs := .active [rip] }

/-- src/resolvables/resolvable_addr_record.rs `resolve_domain`: one
`ip_lookup`; on success one IP-literal child per address, each carrying the
AddrRecord's ttl; on failure `ResolvableVec::empty()`. -/
def ResolvableAddrRecord.resolve_domain (c : DnsClient) (r : ResolvableAddrRecord) :
    ResolvableAddrRecord × List Query :=
  match c.ip_lookup r.domain with
  | some a =>
    ({ r with resolvable_ip_addrs :=
        .active (a.ip_addrs.map fun ip =>
          ResolvableIpAddr.new_with_ttl ip r.port r.transport a.ttl) },
      [.ipQ r.domain])
  | none => ({ r with resolvable_ip_addrs := .empty }, [.ipQ r.domain])

/-- src/resolvables/resolvable_addr_record.rs `resolve_next`. -/
def ResolvableAddrRecord.resolve_next (c : DnsClient) (r : ResolvableAddrRecord) :
    Option Target × ResolvableAddrRecord × List Query :=
  let p := if r.resolvable_ip_addrs.is_unset then r.resolve_domain c else (r, [])
  let z := RVec.resolve_next ripStep p.1.resolvable_ip_addrs
  (z.1, { p.1 with resolvable_ip_addrs := z.2.1 }, p.2 ++ z.2.2)

def ResolvableAddrRecord.state (r : ResolvableAddrRecord) : ResolvableState :=
  r.resolvable_ip_addrs.state

/-- src/resolvables/resolvable_srv_record.rs, the per-entry child
construction shared by `from_srv_record` and `resolve_domain`: for each
`(target, port)` of the record, glue from `additional_hosts` yields one
pre-resolved A/AAAA child per glue address carrying the glue ttl, else a
single live A/AAAA child. -/
def srvAddrChildren (rec : SrvRecord) : List (Domain × Port) → List ResolvableAddrRecord
  | [] => []
  | (d, p) :: rest =>
    match rec.get_additional_for_target d with
    | some ar =>
      (ar.ip_addrs.map fun ip =>
        ResolvableAddrRecord.from_resolvable_ip d p rec.transport
          (ResolvableIpAddr.new_with_ttl ip p rec.transport ar.ttl)) ++
        srvAddrChildren rec rest
    | none => ResolvableAddrRecord.new d p rec.transport :: srvAddrChildren rec rest

/-- src/resolvables/resolvable_srv_record.rs `ResolvableSrvRecord`. -/
structure ResolvableSrvRecord where
  domain : SrvDomain
  resolvable_addr_records : RVec ResolvableAddrRecord
deriving DecidableEq

/-- `ResolvableSrvRecord::new`. -/
def ResolvableSrvRecord.new (domain : SrvDomain) : ResolvableSrvRecord :=
  { domain := domain, resolvable_addr_records := .unset }

/-- `ResolvableSrvRecord::from_srv_record` (pre-fetched record from NAPTR
glue): processes the entries immediately, in the record's entry order. -/
def ResolvableSrvRecord.from_srv_record (rec : SrvRecord) : ResolvableSrvRecord :=
  { domain := rec.domain,
    resolvable_addr_records := .active (srvAddrChildren rec rec.domains_with_ports) }

/-- src/resolvables/resolvable_srv_record.rs `resolve_domain`: one
`srv_lookup`; on success children are built from `domains_with_ports()` in
the order the client returned the entries (`SrvRecord::sorted` is NOT
applied); on failure `ResolvableVec::empty()`. -/
def ResolvableSrvRecord.resolve_domain (c : DnsClient) (r : ResolvableSrvRecord) :
    ResolvableSrvRecord × List Query :=
  match c.srv_lookup r.domain with
  | some rec =>
    ({ r with resolvable_addr_records := .active (srvAddrChildren rec rec.domains_with_ports) },
      [.srvQ r.domain])
  | none => ({ r with resolvable_addr_records := .empty }, [.srvQ r.domain])

/-- src/resolvables/resolvable_srv_record.rs `resolve_next`. -/
def ResolvableSrvRecord.resolve_next (c : DnsClient) (r : ResolvableSrvRecord) :
    Option Target × ResolvableSrvRecord × List Query :=
  let p := if r.resolvable_addr_records.is_unset then r.resolve_domain c else (r, [])
  let z := RVec.resolve_next (ResolvableAddrRecord.resolve_next c) p.1.resolvable_addr_records
  (z.1, { p.1 with resolvable_addr_records := z.2.1 }, p.2 ++ z.2.2)

def ResolvableSrvRecord.state (r : ResolvableSrvRecord) : ResolvableState :=
  r.resolvable_addr_records.state

/-- src/resolvables/resolvable_naptr_record.rs `resolve_domain`, the filter
chain: keep entries whose services carry a transport contained in
`available_transports`, then keep entries whose flags are `S`. -/
def naptrSurvivors (tps : List Transport) (entries : List NaptrEntry) : List NaptrEntry :=
  (entries.filter fun e =>
    match e.services.transport with
    | some t => decide (t ∈ tps)
    | none => false).filter fun e => decide (e.flags = .S)

/-- src/resolvables/resolvable_naptr_record.rs `resolve_domain`, child
construction: each surviving entry (visited in `NaptrRecord::iter` order)
yields one SRV child — pre-fetched via `from_srv_record` when
`additional_srvs` holds its SrvDomain, live otherwise.  (The source's
`has_additional_srvs` pre-check is equivalent to the lookup alone: a lookup
in an empty map returns nothing.) -/
def naptrChildren (tps : List Transport) (rec : NaptrRecord) : List ResolvableSrvRecord :=
  (naptrSurvivors tps rec.iter).map fun e =>
    match rec.get_additional_srv e.srvDomain with
    | some srvRec => ResolvableSrvRecord.from_srv_record srvRec
    | none => ResolvableSrvRecord.new e.srvDomain

/-- src/resolvables/resolvable_naptr_record.rs `ResolvableNaptrRecord`. -/
structure ResolvableNaptrRecord where
  domain : Domain
  available_transports : List Transport
  resolvable_srv_records : RVec ResolvableSrvRecord
deriving DecidableEq

/-- `ResolvableNaptrRecord::new`. -/
def ResolvableNaptrRecord.new (domain : Domain) (tps : List Transport) :
    ResolvableNaptrRecord :=
  { domain := domain, available_transports := tps, resolvable_srv_records := .unset }

/-- src/resolvables/resolvable_naptr_record.rs `resolve_domain`. -/
def ResolvableNaptrRecord.resolve_domain (c : DnsClient) (r : ResolvableNaptrRecord) :
    ResolvableNaptrRecord × List Query :=
  match c.naptr_lookup r.domain with
  | some rec =>
    ({ r with resolvable_srv_records := .active (naptrChildren r.available_transports rec) },
      [.naptrQ r.domain])
  | none => ({ r with resolvable_srv_records := .empty }, [.naptrQ r.domain])

/-- src/resolvables/resolvable_naptr_record.rs `resolve_next`. -/
def ResolvableNaptrRecord.resolve_next (c : DnsClient) (r : ResolvableNaptrRecord) :
    Option Target × ResolvableNaptrRecord × List Query :=
  let p := if r.resolvable_srv_records.is_unset then r.resolve_domain c else (r, [])
  let z := RVec.resolve_next (ResolvableSrvRecord.resolve_next c) p.1.resolvable_srv_records
  (z.1, { p.1 with resolvable_srv_records := z.2.1 }, p.2 ++ z.2.2)

def ResolvableNaptrRecord.state (r : ResolvableNaptrRecord) : ResolvableState :=
  r.resolvable_srv_records.state

/-- The host of a request URI: a domain or an IP literal. -/
inductive Host where
  | domain (d : Domain)
  | ip (a : IpAddr)
deriving DecidableEq

/-- The Context (field layout as constructed in src/tests/lookups/
ttl_tracking.rs).  `supported_transports` is embedded as a transport list. -/
structure Context where
  secure : Bool
  transport : Option Transport
  host : Host
  port : Option Port
  dns_client : DnsClient
  supported_transports : List Transport

/-- Modelled from the spec §4.8: `available_protocols()` is the intersection
of the supported transports with the secure-compatible variants. -/
def Context.available_protocols (ctx : Context) : List Transport :=
  if ctx.secure then ctx.supported_transports.filter fun t => t.is_secure
  else ctx.supported_transports

/-- Modelled from the spec §4.8: `available_transports()` is "the same set
narrowed as needed for NAPTR service matching". -/
def Context.available_transports (ctx : Context) : List Transport :=
  ctx.available_protocols

/-- src/lookup/just_domain_lookup.rs `FallbackConfig` (the dns_client field
is passed at each call instead of being stored). -/
structure FallbackConfig where
  domain : Domain
  available_protocols : List Transport
  secure : Bool
  default_transport : Transport
deriving DecidableEq

/-- src/lookup/just_domain_lookup.rs `JustDomainLookupState`.
`TryingSrvFallbacks` keeps the not-yet-exhausted suffix of the SRV vector
(the source keeps the whole vector plus `current_index`; `resolve_next` only
ever touches the suffix from `current_index` on, so the two are equivalent
for everything observed here). -/
inductive JdlState where
  | tryingNaptr (naptr : ResolvableNaptrRecord) (fallback_config : FallbackConfig)
  | tryingSrvFallbacks (pending : List ResolvableSrvRecord) (any_produced : Bool)
      (addr_fallback : ResolvableAddrRecord)
  | tryingAddrFallback (addr : ResolvableAddrRecord)
  | done
deriving DecidableEq

/-- The stage of the just-domain machine a target or query belongs to, for
stating the no-redundant-queries properties (spec §8, property 3). -/
inductive Phase where
  | naptrP
  | srvP
  | addrP
deriving DecidableEq

/-- src/lookup/just_domain_lookup.rs lines 153–167: one SRV resolvable per
available protocol, on `SrvDomain { secure, protocol: transport.protocol(),
domain }`. -/
def mkSrvFallbacks (cfg : FallbackConfig) : List ResolvableSrvRecord :=
  cfg.available_protocols.map fun tr =>
    ResolvableSrvRecord.new
      { secure := cfg.secure, protocol := tr.protocol, domain := cfg.domain }

/-- src/lookup/just_domain_lookup.rs lines 169–174: the A/AAAA fallback on
the bare domain with the default transport's default port. -/
def mkAddrFallback (cfg : FallbackConfig) : ResolvableAddrRecord :=
  ResolvableAddrRecord.new cfg.domain cfg.default_transport.default_port
    cfg.default_transport

def tagAll (p : Phase) (qs : List Query) : List (Phase × Query) :=
  qs.map fun q => (p, q)

/-- src/lookup/just_domain_lookup.rs lines 222–231 (`TryingAddrFallback`):
drain the bare-domain A/AAAA resolvable; on exhaustion transition to Done. -/
def addrFallbackStep (c : DnsClient) (addr : ResolvableAddrRecord) :
    Option (Phase × Target) × JdlState × List (Phase × Query) :=
  match addr.resolve_next c with
  | (some t, addr2, qs) => (some (.addrP, t), .tryingAddrFallback addr2, tagAll .addrP qs)
  | (none, _, qs) => (none, .done, tagAll .addrP qs)

/-- src/lookup/just_domain_lookup.rs lines 188–220 (`TryingSrvFallbacks`):
drive the current SRV fallback; a `Some` records `any_produced_results` and
returns; a `None` advances to the next fallback within the same call.  When
all are exhausted: Done if any produced a result, else fall through to the
A/AAAA fallback (the source transitions to `TryingAddrFallback` and loops;
the fall-through drives it within the same call, as the loop does). -/
def srvFallbacksStep (c : DnsClient) (addrF : ResolvableAddrRecord) (anyp : Bool) :
    List ResolvableSrvRecord → Option (Phase × Target) × JdlState × List (Phase × Query)
  | s :: rest =>
    match s.resolve_next c with
    | (some t, s2, qs) =>
      (some (.srvP, t), .tryingSrvFallbacks (s2 :: rest) true addrF, tagAll .srvP qs)
    | (none, _, qs) =>
      match srvFallbacksStep c addrF anyp rest with
      | (t, st, qs2) => (t, st, tagAll .srvP qs ++ qs2)
  | [] =>
    if anyp then (none, .done, [])
    else addrFallbackStep c addrF

/-- src/lookup/just_domain_lookup.rs `JustDomainLookup::resolve_next`
(lines 124–236).  In `TryingNaptr` the state is read before and after driving
the NAPTR resolvable; `naptr_succeeded = state_before ≠ Unset ∨ state_after ≠
Unset`, and a succeeded-and-now-Empty NAPTR terminates the machine, while
anything else builds the SRV fallbacks and continues the loop (here: falls
through to `srvFallbacksStep` in the same call, as the `loop` does).
Emitted targets are tagged with the stage that produced them. -/
def JdlState.resolve_next (c : DnsClient) :
    JdlState → Option (Phase × Target) × JdlState × List (Phase × Query)
  | .done => (none, .done, [])
  | .tryingAddrFallback addr => addrFallbackStep c addr
  | .tryingSrvFallbacks pending anyp addrF => srvFallbacksStep c addrF anyp pending
  | .tryingNaptr naptr cfg =>
    let sb := naptr.state
    match naptr.resolve_next c with
    | (some t, n2, qs) => (some (.naptrP, t), .tryingNaptr n2 cfg, tagAll .naptrP qs)
    | (none, n2, qs) =>
      let sa := n2.state
      if (decide (sb ≠ .Unset) || decide (sa ≠ .Unset)) && decide (sa = .Empty) then
        (none, .done, tagAll .naptrP qs)
      else
        match srvFallbacksStep c (mkAddrFallback cfg) false (mkSrvFallbacks cfg) with
        | (t, st, qs2) => (t, st, tagAll .naptrP qs ++ qs2)

/-- src/lookup/just_domain_lookup.rs `JustDomainLookup::new` (lines 77–105).
The source panics when `ctx.host` is not a domain
(`panic!("JustDomainLookup requires a domain")`); the panic is modelled as
`none`. -/
def JustDomainLookup.new (ctx : Context) : Option JdlState :=
  match ctx.host with
  | .ip _ => none
  | .domain d =>
    let dt := if ctx.secure then Transport.default_secure_transport
      else Transport.default_insecure_transport
    some (.tryingNaptr (ResolvableNaptrRecord.new d ctx.available_transports)
      { domain := d, available_protocols := ctx.available_protocols,
        secure := ctx.secure, default_transport := dt })

def JdlState.isDone : JdlState → Bool
  | .done => true
  | _ => false

/-- A finished or truncated run of the just-domain machine: the tagged
targets it yielded, the tagged queries it issued, and the state it stopped
in. -/
structure JdlRun where
  targets : List (Phase × Target)
  queries : List (Phase × Query)
  final : JdlState
deriving DecidableEq

/-- Drive `resolve_next` until it returns `none` (or fuel runs out): the
caller's drain loop of spec §6.2. -/
def jdlDrain (c : DnsClient) : Nat → JdlState → JdlRun
  | 0, s => { targets := [], queries := [], final := s }
  | fuel + 1, s =>
    match s.resolve_next c with
    | (none, s2, qs) => { targets := [], queries := qs, final := s2 }
    | (some t, s2, qs) =>
      let r := jdlDrain c fuel s2
      { targets := t :: r.targets, queries := qs ++ r.queries, final := r.final }

/-- The elements of a phase-tagged list belonging to one phase. -/
def selPhase (p : Phase) (l : List (Phase × α)) : List α :=
  (l.filter fun x => decide (x.1 = p)).map fun x => x.2

def phaseTargets (p : Phase) (r : JdlRun) : List Target :=
  selPhase p r.targets

def phaseQueries (p : Phase) (r : JdlRun) : List Query :=
  selPhase p r.queries

/-- Generic drain result for a standalone resolvable. -/
structure DrainOut (σ : Type) where
  targets : List Target
  queries : List Query
  final : σ
deriving DecidableEq

/-- Drain a standalone SRV resolvable until it returns `none`. -/
def drainSrv (c : DnsClient) : Nat → ResolvableSrvRecord → DrainOut ResolvableSrvRecord
  | 0, s => { targets := [], queries := [], final := s }
  | fuel + 1, s =>
    match s.resolve_next c with
    | (none, s2, qs) => { targets := [], queries := qs, final := s2 }
    | (some t, s2, qs) =>
      let r := drainSrv c fuel s2
      { targets := t :: r.targets, queries := qs ++ r.queries, final := r.final }

/-- Drain a standalone A/AAAA resolvable until it returns `none`. -/
def drainAddr (c : DnsClient) : Nat → ResolvableAddrRecord → DrainOut ResolvableAddrRecord
  | 0, s => { targets := [], queries := [], final := s }
  | fuel + 1, s =>
    match s.resolve_next c with
    | (none, s2, qs) => { targets := [], queries := qs, final := s2 }
    | (some t, s2, qs) =>
      let r := drainAddr c fuel s2
      { targets := t :: r.targets, queries := qs ++ r.queries, final := r.final }

/-- Drain a standalone NAPTR resolvable until it returns `none`. -/
def drainNaptr (c : DnsClient) : Nat → ResolvableNaptrRecord → DrainOut ResolvableNaptrRecord
  | 0, s => { targets := [], queries := [], final := s }
  | fuel + 1, s =>
    match s.resolve_next c with
    | (none, s2, qs) => { targets := [], queries := qs, final := s2 }
    | (some t, s2, qs) =>
      let r := drainNaptr c fuel s2
      { targets := t :: r.targets, queries := qs ++ r.queries, final := r.final }

/-- A full (or fuel-truncated) run of the just-domain machine from the state
`JustDomainLookup::new` builds for domain `d`, NAPTR transports `tps`,
fallback protocols `ps`, secure flag `sec` and default transport `dt`. -/
def jdlRunFrom (c : DnsClient) (fuel : Nat) (d : Domain) (tps ps : List Transport)
    (sec : Bool) (dt : Transport) : JdlRun :=
  jdlDrain c fuel
    (.tryingNaptr (ResolvableNaptrRecord.new d tps)
      { domain := d, available_protocols := ps, secure := sec, default_transport := dt })

/-! ### Concrete fixtures for the scenario claims -/

/-- Scenario S4 (claim C2): the SRV record on `_sip._tcp.example.com`,
one entry targeting `t.example.com:5060`. -/
def s4SrvRecord : SrvRecord :=
  { entries := [{ priority := 0, weight := 0, port := 5060, target := "t.example.com" }],
    domain := { secure := false, protocol := .tcp, domain := "example.com" },
    ttl := 300, additional_hosts := [] }

/-- Scenario S4 (claim C2): NAPTR absent; SRV absent on `_sip._udp`, present
on `_sip._tcp`; A records exist both for `t.example.com` (TTL 60) and for the
bare `example.com` (so that the absence of the bare-domain query is
observable). -/
def s4Client : DnsClient :=
  { naptr_lookup := fun _ => none,
    srv_lookup := fun sd =>
      if sd = { secure := false, protocol := .tcp, domain := "example.com" } then
        some s4SrvRecord
      else none,
    ip_lookup := fun d =>
      if d = "t.example.com" then
        some { domain := "t.example.com", ttl := 60, ip_addrs := ["198.51.100.9"] }
      else if d = "example.com" then
        some { domain := "example.com", ttl := 999, ip_addrs := ["203.0.113.7"] }
      else none }

/-- Scenario S4 (claim C2): the request context for `sip:example.com`,
supported transports {UDP, TCP}. -/
def s4Context : Context :=
  { secure := false, transport := none, host := .domain "example.com", port := none,
    dns_client := s4Client, supported_transports := [.udp, .tcp] }

/-- The initial machine state `JustDomainLookup::new` builds for S4. -/
def s4Init : JdlState :=
  .tryingNaptr (ResolvableNaptrRecord.new "example.com" [.udp, .tcp])
    { domain := "example.com", available_protocols := [.udp, .tcp],
      secure := false, default_transport := .udp }

/-- A DNS client all of whose lookups fail. -/
def nullClient : DnsClient :=
  { naptr_lookup := fun _ => none, srv_lookup := fun _ => none, ip_lookup := fun _ => none }

/-- Claim C3's SRV domain. -/
def c3SrvDomain : SrvDomain := { secure := false, protocol := .udp, domain := "example.com" }

/-- Claim C3's SRV record: entries with (priority, weight) = (10,5), (10,50),
(20,100) in that input order, with distinct ports so the emission order is
observable. -/
def c3SrvRecord : SrvRecord :=
  { entries :=
      [{ priority := 10, weight := 5, port := 1001, target := "a.example.com" },
       { priority := 10, weight := 50, port := 1002, target := "b.example.com" },
       { priority := 20, weight := 100, port := 1003, target := "c.example.com" }],
    domain := c3SrvDomain, ttl := 300, additional_hosts := [] }

/-- Claim C3's DNS client. -/
def c3Client : DnsClient :=
  { naptr_lookup := fun _ => none,
    srv_lookup := fun sd => if sd = c3SrvDomain then some c3SrvRecord else none,
    ip_lookup := fun d =>
      if d = "a.example.com" then some { domain := d, ttl := 30, ip_addrs := ["192.0.2.1"] }
      else if d = "b.example.com" then some { domain := d, ttl := 30, ip_addrs := ["192.0.2.2"] }
      else if d = "c.example.com" then some { domain := d, ttl := 30, ip_addrs := ["192.0.2.3"] }
      else none }

/-- Claim C4's NAPTR entries: (order, preference) = (50,10), (10,99), (10,1)
in that input order, with distinct replacements so the child order is
observable. -/
def c4Entries : List NaptrEntry :=
  [{ order := 50, preference := 10, flags := .S, services := .SipD2u, regexp := [],
     replacement := "big.example.com" },
   { order := 10, preference := 99, flags := .S, services := .SipD2u, regexp := [],
     replacement := "mid.example.com" },
   { order := 10, preference := 1, flags := .S, services := .SipD2u, regexp := [],
     replacement := "low.example.com" }]

/-- Claim C4's NAPTR record. -/
def c4Record : NaptrRecord :=
  { domain := "example.com", ttl := 300, entries := c4Entries, additional_srvs := [] }

/-- Claim C4, tie-breaking: two entries with identical (order, preference). -/
def c4TieRecord : NaptrRecord :=
  { domain := "example.com", ttl := 300,
    entries :=
      [{ order := 10, preference := 5, flags := .S, services := .SipD2u, regexp := [],
         replacement := "first.example.com" },
       { order := 10, preference := 5, flags := .S, services := .SipD2u, regexp := [],
         replacement := "second.example.com" }],
    additional_srvs := [] }

/-- Claim C6: the glue A/AAAA record in the SRV's ADDITIONAL section. -/
def c6AddrRec : AddrRecord :=
  { domain := "tcp1.example.com", ttl := 300, ip_addrs := ["203.0.113.10", "203.0.113.11"] }

/-- Claim C6: the glue SRV record in the NAPTR's ADDITIONAL section, with
complete `additional_hosts`. -/
def c6SrvRec : SrvRecord :=
  { entries := [{ priority := 100, weight := 5, port := 10000, target := "tcp1.example.com" }],
    domain := { secure := true, protocol := .tcp, domain := "example.com" },
    ttl := 400, additional_hosts := [("tcp1.example.com", c6AddrRec)] }

/-- Claim C6: the NAPTR entry (S flag, sips-over-tcp). -/
def c6NaptrEntry : NaptrEntry :=
  { order := 50, preference := 5, flags := .S, services := .SipsD2t, regexp := [],
    replacement := "example.com" }

/-- Claim C6: the NAPTR record with complete `additional_srvs`. -/
def c6NaptrRec : NaptrRecord :=
  { domain := "example.com", ttl := 600, entries := [c6NaptrEntry],
    additional_srvs :=
      [({ secure := true, protocol := .tcp, domain := "example.com" }, c6SrvRec)] }

/-- Claim C6: a recursive-style client; only `naptr_lookup` answers. -/
def c6Client : DnsClient :=
  { naptr_lookup := fun d => if d = "example.com" then some c6NaptrRec else none,
    srv_lookup := fun _ => none, ip_lookup := fun _ => none }

/-- Claim C7: a NAPTR record none of whose entries survives the filter —
flags U, A, P and Other, an S entry whose transport is unavailable, and an S
entry whose services carry no transport. -/
def c7Record : NaptrRecord :=
  { domain := "example.com", ttl := 300,
    entries :=
      [{ order := 1, preference := 1, flags := .U, services := .SipD2u, regexp := [],
         replacement := "u.example.com" },
       { order := 2, preference := 1, flags := .A, services := .SipD2u, regexp := [],
         replacement := "a.example.com" },
       { order := 3, preference := 1, flags := .P, services := .SipD2u, regexp := [],
         replacement := "p.example.com" },
       { order := 4, preference := 1, flags := .Other [88], services := .SipD2u, regexp := [],
         replacement := "o.example.com" },
       { order := 5, preference := 1, flags := .S, services := .SipD2t, regexp := [],
         replacement := "t.example.com" },
       { order := 6, preference := 1, flags := .S, services := .Other "sip+x", regexp := [],
         replacement := "x.example.com" }],
    additional_srvs := [] }

/-- Claim C7: client serving `c7Record`. -/
def c7Client : DnsClient :=
  { naptr_lookup := fun d => if d = "example.com" then some c7Record else none,
    srv_lookup := fun _ => none, ip_lookup := fun _ => none }

/-! ### Helper lemmas -/

theorem selPhase_nil (p : Phase) : selPhase p ([] : List (Phase × α)) = [] := rfl

theorem selPhase_append (p : Phase) (l1 l2 : List (Phase × α)) :
    selPhase p (l1 ++ l2) = selPhase p l1 ++ selPhase p l2 := by
  simp [selPhase, List.filter_append]

theorem selPhase_cons_self (p : Phase) (x : α) (l : List (Phase × α)) :
    selPhase p ((p, x) :: l) = x :: selPhase p l := by
  simp [selPhase]

theorem selPhase_cons_ne (p p2 : Phase) (x : α) (l : List (Phase × α)) (h : p2 ≠ p) :
    selPhase p ((p2, x) :: l) = selPhase p l := by
  simp [selPhase, h]

theorem selPhase_tagAll_self (p : Phase) (qs : List Query) :
    selPhase p (tagAll p qs) = qs := by
  induction qs with
  | nil => rfl
  | cons q rest ih =>
    simp only [tagAll, selPhase] at ih ⊢
    simp [ih]

theorem selPhase_tagAll_ne (p p2 : Phase) (qs : List Query) (h : p2 ≠ p) :
    selPhase p (tagAll p2 qs) = [] := by
  induction qs with
  | nil => rfl
  | cons q rest ih =>
    simp only [tagAll, selPhase] at ih ⊢
    simp [h, ih]

theorem selPhase_eq_nil_of_all (p : Phase) (l : List (Phase × α))
    (h : ∀ x ∈ l, x.1 ≠ p) : selPhase p l = [] := by
  induction l with
  | nil => rfl
  | cons x rest ih =>
    have hx := h x (by simp)
    simp only [selPhase, List.filter_cons, decide_eq_true_eq]
    simp only [hx, if_false]
    exact ih fun y hy => h y (by simp [hy])

/-! ### Claim theorems: concrete scenarios and simple interfaces -/

/-- C2: for a just-domain lookup of `sip:example.com` with supported
transports {UDP, TCP}, against a client where NAPTR is absent, SRV on
`_sip._udp.example.com` is absent, SRV on `_sip._tcp.example.com` targets
`t.example.com:5060`, and A on `t.example.com` is [198.51.100.9] with TTL 60:
draining yields exactly the one Target (198.51.100.9, 5060, TCP, 60), then
`none` forever (the machine is Done), and no `ip_lookup` on `example.com` is
ever issued. -/
theorem c2_s4_one_transport_srv :
    JustDomainLookup.new s4Context = some s4Init ∧
    (jdlDrain s4Client 3 s4Init).targets.map (fun x => x.2) =
      [{ ip_addr := "198.51.100.9", port := 5060, transport := .tcp, ttl := 60 }] ∧
    (jdlDrain s4Client 3 s4Init).final = .done ∧
    (JdlState.resolve_next s4Client (jdlDrain s4Client 3 s4Init).final).1 = none ∧
    Query.ipQ "example.com" ∉ (jdlDrain s4Client 3 s4Init).queries.map (fun x => x.2) := by
  refine ⟨by decide, by decide, by decide, by decide, by decide⟩

/-- C3 (evaluation at the failing input): for the SRV record with (priority,
weight) entries [(10,5), (10,50), (20,100)] at ports 1001, 1002, 1003,
`ResolvableSrvRecord` emits the targets in the input order of the entries —
ports [1001, 1002, 1003] — whereas the descending total-weight order the
claim describes (computed by `SrvRecord::sorted`, which `resolve_domain`
never applies) is [1003, 1002, 1001]; the `total_weight` values themselves
are 9995, 10040, 10080 as the spec states. -/
theorem c3_srv_entries_emitted_unsorted :
    (drainSrv c3Client 5 (ResolvableSrvRecord.new c3SrvDomain)).targets.map (fun t => t.port) =
      [1001, 1002, 1003] ∧
    c3SrvRecord.sorted.entries.map (fun e => e.port) = [1003, 1002, 1001] ∧
    c3SrvRecord.entries.map SrvEntry.total_weight = [9995, 10040, 10080] ∧
    (drainSrv c3Client 5 (ResolvableSrvRecord.new c3SrvDomain)).targets.map (fun t => t.port) ≠
      c3SrvRecord.sorted.entries.map (fun e => e.port) := by
  refine ⟨by decide, by decide, by decide, by decide⟩

/-- C9: `SrvEntry::total_weight` is computed in u16 arithmetic.  Whenever
`priority ≤ 10000` and the mathematical key `(10000 − priority) + weight`
fits in a u16 it equals that key; but the subtraction underflows for some
priority > 10000, and the addition overflows for some small priority and
large weight, so over the full u16 × u16 domain `total_weight` differs from
the mathematical key. -/
theorem c9_total_weight_u16_wrap :
    (∀ p w : Nat, p ≤ 10000 → (10000 - p) + w ≤ 65535 →
      SrvEntry.total_weight { priority := p, weight := w, port := 0, target := "" } =
        (10000 - p) + w) ∧
    (∃ p w : Nat, p ≤ 65535 ∧ w ≤ 65535 ∧ 10000 < p ∧
      ((SrvEntry.total_weight { priority := p, weight := w, port := 0, target := "" } : Int) ≠
        (10000 : Int) - (p : Int) + (w : Int))) ∧
    (∃ p w : Nat, p ≤ 65535 ∧ w ≤ 65535 ∧ p ≤ 10000 ∧ 65535 < (10000 - p) + w ∧
      ((SrvEntry.total_weight { priority := p, weight := w, port := 0, target := "" } : Int) ≠
        (10000 : Int) - (p : Int) + (w : Int))) := by
  refine ⟨?_, ⟨20000, 0, by decide, by decide, by decide, by decide⟩,
    ⟨0, 60000, by decide, by decide, by decide, by decide, by decide⟩⟩
  intro p w hp hkey
  unfold SrvEntry.total_weight
  simp only
  have hpm : p % 65536 = p := Nat.mod_eq_of_lt (by omega)
  have hwm : w % 65536 = w := Nat.mod_eq_of_lt (by omega)
  rw [hpm, hwm]
  have h1 : 10000 + 65536 - p = (10000 - p) + 65536 := by omega
  rw [h1, Nat.add_mod_right]
  have h2 : (10000 - p) % 65536 = 10000 - p := Nat.mod_eq_of_lt (by omega)
  rw [h2]
  exact Nat.mod_eq_of_lt (by omega)

/-- C9 witness: at priority 100, weight 7 the hypotheses hold and
total_weight is the mathematical key 9907. -/
theorem c9_total_weight_u16_wrap_witness :
    SrvEntry.total_weight { priority := 100, weight := 7, port := 0, target := "" } =
      (10000 - 100) + 7 :=
  c9_total_weight_u16_wrap.1 100 7 (by decide) (by decide)

/-- C10: `JustDomainLookup::new` is partial at its public interface: it
panics (modelled as `none`) for every Context whose host is an IP address,
and returns normally exactly when the host is a Domain. -/
theorem c10_new_requires_domain :
    (∀ ctx : Context, ∀ a : IpAddr, ctx.host = .ip a → JustDomainLookup.new ctx = none) ∧
    (∀ ctx : Context, (JustDomainLookup.new ctx).isSome = true ↔ ∃ d, ctx.host = .domain d) := by
  constructor
  · intro ctx a h
    unfold JustDomainLookup.new
    rw [h]
  · intro ctx
    unfold JustDomainLookup.new
    cases h : ctx.host with
    | ip a => simp [h]
    | domain d =>
      simp only [h, Option.isSome_some, true_iff]
      exact ⟨d, rfl⟩

theorem insertOrdered_perm (le : α → α → Bool) (x : α) (l : List α) :
    (insertOrdered le x l).Perm (x :: l) := by
  induction l with
  | nil => exact List.Perm.refl _
  | cons y ys ih =>
    by_cases h : le x y = true
    · simp [insertOrdered, h]
    · simp only [insertOrdered, h, if_false]
      exact (ih.cons y).trans (List.Perm.swap x y ys)

theorem sortOrdered_perm (le : α → α → Bool) (l : List α) :
    (sortOrdered le l).Perm l := by
  induction l with
  | nil => exact List.Perm.refl _
  | cons x xs ih =>
    exact (insertOrdered_perm le x (sortOrdered le xs)).trans (ih.cons x)

theorem pairwise_insertOrdered (R : α → α → Prop) (le : α → α → Bool)
    (h1 : ∀ a b, le a b = true → R a b) (h2 : ∀ a b, le a b = false → R b a)
    (htr : ∀ a b c, R a b → R b c → R a c) (x : α) (l : List α)
    (hl : l.Pairwise R) : (insertOrdered le x l).Pairwise R := by
  induction l with
  | nil => simp [insertOrdered]
  | cons y ys ih =>
    by_cases h : le x y = true
    · simp only [insertOrdered, h, if_true]
      refine List.Pairwise.cons ?_ hl
      intro z hz
      rcases List.mem_cons.mp hz with hz | hz
      · exact hz ▸ h1 x y h
      · exact htr x y z (h1 x y h) (List.rel_of_pairwise_cons hl hz)
    · simp only [insertOrdered, h, if_false]
      have hys : ys.Pairwise R := hl.of_cons
      refine List.Pairwise.cons ?_ (ih hys)
      intro z hz
      have hz2 : z ∈ x :: ys := (insertOrdered_perm le x ys).mem_iff.mp hz
      rcases List.mem_cons.mp hz2 with hz2 | hz2
      · exact hz2 ▸ h2 x y (by simpa using h)
      · exact List.rel_of_pairwise_cons hl hz2

theorem pairwise_sortOrdered (R : α → α → Prop) (le : α → α → Bool)
    (h1 : ∀ a b, le a b = true → R a b) (h2 : ∀ a b, le a b = false → R b a)
    (htr : ∀ a b c, R a b → R b c → R a c) (l : List α) :
    (sortOrdered le l).Pairwise R := by
  induction l with
  | nil => simp [sortOrdered]
  | cons x xs ih => exact pairwise_insertOrdered R le h1 h2 htr x _ ih

/-- C4: for every NaptrRecord the children of `ResolvableNaptrRecord` are
built over the entries in ascending `order`, ties broken by ascending
`preference` (the visited sequence `iter` is sorted for that relation and is
a permutation of the entries), ties broken by input order; the claim's
example [(50,10), (10,99), (10,1)] produces children in the order
[(10,1), (10,99), (50,10)], and entries with identical (order, preference)
keep their input order. -/
theorem c4_naptr_children_order :
    (∀ r : NaptrRecord, r.iter.Pairwise fun a b =>
      a.order < b.order ∨ (a.order = b.order ∧ a.preference ≤ b.preference)) ∧
    (∀ r : NaptrRecord, r.iter.Perm r.entries) ∧
    (naptrChildren [.udp] c4Record).map (fun s => s.domain.domain) =
      ["low.example.com", "mid.example.com", "big.example.com"] ∧
    (c4Record.iter.map fun e => (e.order, e.preference)) = [(10, 1), (10, 99), (50, 10)] ∧
    (naptrChildren [.udp] c4TieRecord).map (fun s => s.domain.domain) =
      ["first.example.com", "second.example.com"] := by
  refine ⟨?_, fun r => sortOrdered_perm naptrEntryLe r.entries, by decide, by decide, by decide⟩
  intro r
  refine pairwise_sortOrdered _ naptrEntryLe ?_ ?_ ?_ r.entries
  · intro a b h
    simp only [naptrEntryLe, Bool.or_eq_true, Bool.and_eq_true, decide_eq_true_eq] at h
    omega
  · intro a b h
    simp only [naptrEntryLe, Bool.or_eq_false_iff, Bool.and_eq_false_iff,
      decide_eq_false_iff_not] at h
    omega
  · intro a b c hab hbc
    omega

/-- C7: `ResolvableNaptrRecord` builds a child SRV resolvable exactly for the
entries whose flags are `S` and whose services carry a transport contained in
`available_transports` (one child per surviving entry); entries with any
other flag, with a transport outside the set, or with no transport produce no
child — witnessed concretely by a record of U/A/P/Other-flagged entries, an
unavailable-transport S entry and a transportless S entry, which yields no
children, no targets, and no queries beyond the single NAPTR lookup. -/
theorem c7_naptr_filter_exact :
    (∀ (tps : List Transport) (entries : List NaptrEntry) (e : NaptrEntry),
      e ∈ naptrSurvivors tps entries ↔
        (e ∈ entries ∧ e.flags = .S ∧ ∃ t, e.services.transport = some t ∧ t ∈ tps)) ∧
    (∀ (tps : List Transport) (rec : NaptrRecord),
      (naptrChildren tps rec).length = (naptrSurvivors tps rec.iter).length) ∧
    naptrChildren [.udp] c7Record = [] ∧
    (drainNaptr c7Client 3 (ResolvableNaptrRecord.new "example.com" [.udp])).queries =
      [.naptrQ "example.com"] ∧
    (drainNaptr c7Client 3 (ResolvableNaptrRecord.new "example.com" [.udp])).targets = [] := by
  refine ⟨?_, ?_, by decide, by decide, by decide⟩
  · intro tps entries e
    simp only [naptrSurvivors, List.mem_filter, decide_eq_true_eq]
    cases h : e.services.transport with
    | none =>
      simp only [h]
      constructor
      · rintro ⟨⟨-, hfalse⟩, -⟩
        exact absurd hfalse (by simp)
      · rintro ⟨-, -, t, ht, -⟩
        exact absurd ht (by simp)
    | some t0 =>
      simp only [h, decide_eq_true_eq]
      constructor
      · rintro ⟨⟨he, hmem⟩, hflag⟩
        exact ⟨he, hflag, t0, rfl, hmem⟩
      · rintro ⟨he, hflag, t, ht, hmem⟩
        cases ht
        exact ⟨⟨he, hmem⟩, hflag⟩
  · intro tps rec
    simp [naptrChildren]

/-! ### Exhaustion lemmas -/

theorem RVec.is_unset_eq_false {σ : Type} {v : RVec σ} (h : v ≠ .unset) :
    v.is_unset = false := by
  cases v with
  | unset => exact absurd rfl h
  | empty => rfl
  | active cs => rfl

theorem rvecGo_none {σ : Type} (step : σ → Option Target × σ × List Query)
    (cs : List σ) (h : (rvecGo step cs).1 = none) :
    (rvecGo step cs).2.1 = RVec.active ([] : List σ) := by
  induction cs with
  | nil => rfl
  | cons c rest ih =>
    rcases hstep : step c with ⟨t, c2, qs⟩
    cases t with
    | some t0 =>
      simp only [rvecGo, hstep] at h
      exact Option.noConfusion h
    | none =>
      rcases hrest : rvecGo step rest with ⟨t2, v2, qs2⟩
      simp only [rvecGo, hstep, hrest] at h ⊢
      have := ih
      rw [hrest] at this
      exact this h

theorem rvec_none_shape {σ : Type} (step : σ → Option Target × σ × List Query)
    (v : RVec σ) (hv : v ≠ .unset) (h : (RVec.resolve_next step v).1 = none) :
    (RVec.resolve_next step v).2.1 = RVec.empty ∨
      (RVec.resolve_next step v).2.1 = RVec.active ([] : List σ) := by
  cases v with
  | unset => exact absurd rfl hv
  | empty => exact Or.inl rfl
  | active cs => exact Or.inr (rvecGo_none step cs h)

theorem rvec_stuck {σ : Type} (step : σ → Option Target × σ × List Query)
    (v : RVec σ) (hv : v = .empty ∨ v = .active ([] : List σ)) :
    RVec.resolve_next step v = (none, v, []) := by
  rcases hv with h | h <;> rw [h] <;> rfl

theorem addr_step_eq (c : DnsClient) (r : ResolvableAddrRecord)
    (hne : r.resolvable_ip_addrs ≠ .unset) :
    r.resolve_next c =
      ((RVec.resolve_next ripStep r.resolvable_ip_addrs).1,
       { r with resolvable_ip_addrs := (RVec.resolve_next ripStep r.resolvable_ip_addrs).2.1 },
       (RVec.resolve_next ripStep r.resolvable_ip_addrs).2.2) := by
  unfold ResolvableAddrRecord.resolve_next
  rw [RVec.is_unset_eq_false hne]
  rfl

theorem addr_resolve_domain_not_unset (c : DnsClient) (r : ResolvableAddrRecord) :
    (r.resolve_domain c).1.resolvable_ip_addrs ≠ RVec.unset := by
  unfold ResolvableAddrRecord.resolve_domain
  cases c.ip_lookup r.domain <;> simp

theorem addr_resolve_next_fix (c : DnsClient) (r r2 : ResolvableAddrRecord)
    (qs : List Query) (h : r.resolve_next c = (none, r2, qs)) :
    r2.resolve_next c = (none, r2, []) := by
  have hshape : r2.resolvable_ip_addrs = RVec.empty ∨
      r2.resolvable_ip_addrs = RVec.active [] := by
    by_cases hu : r.resolvable_ip_addrs = RVec.unset
    · have hiu : r.resolvable_ip_addrs.is_unset = true := by rw [hu]; rfl
      unfold ResolvableAddrRecord.resolve_next at h
      rw [hiu] at h
      simp only [if_true] at h
      injection h with h1 h23
      injection h23 with h2 h3
      have hr2 : r2.resolvable_ip_addrs =
          (RVec.resolve_next ripStep (r.resolve_domain c).1.resolvable_ip_addrs).2.1 := by
        rw [← h2]
      rw [hr2]
      exact rvec_none_shape _ _ (addr_resolve_domain_not_unset c r) h1
    · rw [addr_step_eq c r hu] at h
      injection h with h1 h23
      injection h23 with h2 h3
      have hr2 : r2.resolvable_ip_addrs =
          (RVec.resolve_next ripStep r.resolvable_ip_addrs).2.1 := by
        rw [← h2]
      rw [hr2]
      exact rvec_none_shape _ _ hu h1
  have hne : r2.resolvable_ip_addrs ≠ RVec.unset := by
    rcases hshape with h2 | h2 <;> rw [h2] <;> intro hc <;> exact RVec.noConfusion hc
  rw [addr_step_eq c r2 hne, rvec_stuck ripStep _ hshape]

theorem srv_step_eq (c : DnsClient) (r : ResolvableSrvRecord)
    (hne : r.resolvable_addr_records ≠ .unset) :
    r.resolve_next c =
      ((RVec.resolve_next (ResolvableAddrRecord.resolve_next c) r.resolvable_addr_records).1,
       { r with resolvable_addr_records :=
          (RVec.resolve_next (ResolvableAddrRecord.resolve_next c) r.resolvable_addr_records).2.1 },
       (RVec.resolve_next (ResolvableAddrRecord.resolve_next c) r.resolvable_addr_records).2.2) := by
  unfold ResolvableSrvRecord.resolve_next
  rw [RVec.is_unset_eq_false hne]
  rfl

theorem srv_resolve_domain_not_unset (c : DnsClient) (r : ResolvableSrvRecord) :
    (r.resolve_domain c).1.resolvable_addr_records ≠ RVec.unset := by
  unfold ResolvableSrvRecord.resolve_domain
  cases c.srv_lookup r.domain <;> simp

theorem srv_resolve_next_fix (c : DnsClient) (r r2 : ResolvableSrvRecord)
    (qs : List Query) (h : r.resolve_next c = (none, r2, qs)) :
    r2.resolve_next c = (none, r2, []) := by
  have hshape : r2.resolvable_addr_records = RVec.empty ∨
      r2.resolvable_addr_records = RVec.active [] := by
    by_cases hu : r.resolvable_addr_records = RVec.unset
    · have hiu : r.resolvable_addr_records.is_unset = true := by rw [hu]; rfl
      unfold ResolvableSrvRecord.resolve_next at h
      rw [hiu] at h
      simp only [if_true] at h
      injection h with h1 h23
      injection h23 with h2 h3
      have hr2 : r2.resolvable_addr_records =
          (RVec.resolve_next (ResolvableAddrRecord.resolve_next c)
            (r.resolve_domain c).1.resolvable_addr_records).2.1 := by
        rw [← h2]
      rw [hr2]
      exact rvec_none_shape _ _ (srv_resolve_domain_not_unset c r) h1
    · rw [srv_step_eq c r hu] at h
      injection h with h1 h23
      injection h23 with h2 h3
      have hr2 : r2.resolvable_addr_records =
          (RVec.resolve_next (ResolvableAddrRecord.resolve_next c)
            r.resolvable_addr_records).2.1 := by
        rw [← h2]
      rw [hr2]
      exact rvec_none_shape _ _ hu h1
  have hne : r2.resolvable_addr_records ≠ RVec.unset := by
    rcases hshape with h2 | h2 <;> rw [h2] <;> intro hc <;> exact RVec.noConfusion hc
  rw [srv_step_eq c r2 hne, rvec_stuck _ _ hshape]

theorem naptr_step_eq (c : DnsClient) (r : ResolvableNaptrRecord)
    (hne : r.resolvable_srv_records ≠ .unset) :
    r.resolve_next c =
      ((RVec.resolve_next (ResolvableSrvRecord.resolve_next c) r.resolvable_srv_records).1,
       { r with resolvable_srv_records :=
          (RVec.resolve_next (ResolvableSrvRecord.resolve_next c) r.resolvable_srv_records).2.1 },
       (RVec.resolve_next (ResolvableSrvRecord.resolve_next c) r.resolvable_srv_records).2.2) := by
  unfold ResolvableNaptrRecord.resolve_next
  rw [RVec.is_unset_eq_false hne]
  rfl

theorem naptr_resolve_domain_not_unset (c : DnsClient) (r : ResolvableNaptrRecord) :
    (r.resolve_domain c).1.resolvable_srv_records ≠ RVec.unset := by
  unfold ResolvableNaptrRecord.resolve_domain
  cases c.naptr_lookup r.domain <;> simp

theorem naptr_resolve_next_fix (c : DnsClient) (r r2 : ResolvableNaptrRecord)
    (qs : List Query) (h : r.resolve_next c = (none, r2, qs)) :
    r2.resolve_next c = (none, r2, []) := by
  have hshape : r2.resolvable_srv_records = RVec.empty ∨
      r2.resolvable_srv_records = RVec.active [] := by
    by_cases hu : r.resolvable_srv_records = RVec.unset
    · have hiu : r.resolvable_srv_records.is_unset = true := by rw [hu]; rfl
      unfold ResolvableNaptrRecord.resolve_next at h
      rw [hiu] at h
      simp only [if_true] at h
      injection h with h1 h23
      injection h23 with h2 h3
      have hr2 : r2.resolvable_srv_records =
          (RVec.resolve_next (ResolvableSrvRecord.resolve_next c)
            (r.resolve_domain c).1.resolvable_srv_records).2.1 := by
        rw [← h2]
      rw [hr2]
      exact rvec_none_shape _ _ (naptr_resolve_domain_not_unset c r) h1
    · rw [naptr_step_eq c r hu] at h
      injection h with h1 h23
      injection h23 with h2 h3
      have hr2 : r2.resolvable_srv_records =
          (RVec.resolve_next (ResolvableSrvRecord.resolve_next c)
            r.resolvable_srv_records).2.1 := by
        rw [← h2]
      rw [hr2]
      exact rvec_none_shape _ _ hu h1
  have hne : r2.resolvable_srv_records ≠ RVec.unset := by
    rcases hshape with h2 | h2 <;> rw [h2] <;> intro hc <;> exact RVec.noConfusion hc
  rw [naptr_step_eq c r2 hne, rvec_stuck _ _ hshape]

theorem addrFallbackStep_none_done (c : DnsClient) (addr : ResolvableAddrRecord)
    (st : JdlState) (qs : List (Phase × Query))
    (h : addrFallbackStep c addr = (none, st, qs)) : st = .done := by
  rcases hstep : addr.resolve_next c with ⟨t, a2, qs2⟩
  cases t with
  | some t0 =>
    simp only [addrFallbackStep, hstep] at h
    exact Option.noConfusion (congrArg Prod.fst h)
  | none =>
    simp only [addrFallbackStep, hstep] at h
    injection h with h1 h23
    injection h23 with h2 h3
    exact h2.symm

theorem srvFallbacksStep_none_done (c : DnsClient) (addrF : ResolvableAddrRecord)
    (anyp : Bool) (pending : List ResolvableSrvRecord) (st : JdlState)
    (qs : List (Phase × Query))
    (h : srvFallbacksStep c addrF anyp pending = (none, st, qs)) : st = .done := by
  induction pending generalizing qs with
  | nil =>
    cases ha : anyp with
    | true =>
      rw [ha] at h
      simp only [srvFallbacksStep, if_true] at h
      injection h with h1 h23
      injection h23 with h2 h3
      exact h2.symm
    | false =>
      rw [ha] at h
      simp only [srvFallbacksStep, Bool.false_eq_true, if_false] at h
      exact addrFallbackStep_none_done c addrF st qs h
  | cons s rest ih =>
    rcases hstep : s.resolve_next c with ⟨t, s2, qs2⟩
    cases t with
    | some t0 =>
      simp only [srvFallbacksStep, hstep] at h
      exact Option.noConfusion (congrArg Prod.fst h)
    | none =>
      rcases hrest : srvFallbacksStep c addrF anyp rest with ⟨t3, st3, qs3⟩
      simp only [srvFallbacksStep, hstep, hrest] at h
      injection h with h1 h23
      injection h23 with h2 h3
      exact h2 ▸ ih qs3 (by rw [hrest, ← h1, h2])

theorem jdl_resolve_next_none_done (c : DnsClient) (s s2 : JdlState)
    (qs : List (Phase × Query)) (h : s.resolve_next c = (none, s2, qs)) :
    s2 = .done := by
  cases s with
  | done =>
    injection h with h1 h23
    injection h23 with h2 h3
    exact h2.symm
  | tryingAddrFallback addr => exact addrFallbackStep_none_done c addr s2 qs h
  | tryingSrvFallbacks pending anyp addrF =>
    exact srvFallbacksStep_none_done c addrF anyp pending s2 qs h
  | tryingNaptr naptr cfg =>
    rcases hstep : naptr.resolve_next c with ⟨t, n2, qs2⟩
    cases t with
    | some t0 =>
      simp only [JdlState.resolve_next, hstep] at h
      exact Option.noConfusion (congrArg Prod.fst h)
    | none =>
      simp only [JdlState.resolve_next, hstep] at h
      cases hcond : ((decide (naptr.state ≠ .Unset) || decide (n2.state ≠ .Unset)) &&
          decide (n2.state = .Empty)) with
      | true =>
        rw [hcond] at h
        simp only [if_true] at h
        injection h with h1 h23
        injection h23 with h2 h3
        exact h2.symm
      | false =>
        rw [hcond] at h
        simp only [Bool.false_eq_true, if_false] at h
        rcases hsf : srvFallbacksStep c (mkAddrFallback cfg) false (mkSrvFallbacks cfg) with
          ⟨t3, st3, qs3⟩
        rw [hsf] at h
        injection h with h1 h23
        injection h23 with h2 h3
        have h1a : t3 = none := h1
        have h2a : st3 = s2 := h2
        exact srvFallbacksStep_none_done c _ _ _ _ _ (by rw [hsf, h1a, h2a])

/-- C8: exhaustion is terminal for every resolvable in the pipeline — the
IP-literal resolvable, the vector combinator, the A/AAAA, SRV and NAPTR
resolvables, and the just-domain state machine.  Once `resolve_next` has
returned `none` the resolvable is in a state from which every subsequent call
returns `none` again (and leaves the state fixed, so all later calls agree);
the just-domain machine moreover lands exactly in its `Done` state. -/
theorem c8_exhaustion_terminal :
    (∀ (r r2 : ResolvableIpAddr), r.resolve_next = (none, r2) →
      r2.resolve_next = (none, r2)) ∧
    (∀ (σ : Type) (step : σ → Option Target × σ × List Query) (v v2 : RVec σ)
      (qs : List Query), RVec.resolve_next step v = (none, v2, qs) →
      RVec.resolve_next step v2 = (none, v2, [])) ∧
    (∀ (c : DnsClient) (r r2 : ResolvableAddrRecord) (qs : List Query),
      r.resolve_next c = (none, r2, qs) → r2.resolve_next c = (none, r2, [])) ∧
    (∀ (c : DnsClient) (r r2 : ResolvableSrvRecord) (qs : List Query),
      r.resolve_next c = (none, r2, qs) → r2.resolve_next c = (none, r2, [])) ∧
    (∀ (c : DnsClient) (r r2 : ResolvableNaptrRecord) (qs : List Query),
      r.resolve_next c = (none, r2, qs) → r2.resolve_next c = (none, r2, [])) ∧
    (∀ (c : DnsClient) (s s2 : JdlState) (qs : List (Phase × Query)),
      s.resolve_next c = (none, s2, qs) →
      s2 = .done ∧ s2.resolve_next c = (none, s2, [])) := by
  refine ⟨?_, ?_, addr_resolve_next_fix, srv_resolve_next_fix, naptr_resolve_next_fix, ?_⟩
  · intro r r2 h
    unfold ResolvableIpAddr.resolve_next at h ⊢
    by_cases hs : r.spent = true
    · rw [hs] at h
      simp only [if_true] at h
      rcases Prod.mk.injEq .. ▸ h with ⟨-, h2⟩
      rw [← h2, hs]
      simp
    · rw [Bool.eq_false_iff.mpr hs] at h
      simp at h
  · intro σ step v v2 qs h
    have h1 : (RVec.resolve_next step v).1 = none := by rw [h]
    have h2 : (RVec.resolve_next step v).2.1 = v2 := by rw [h]
    cases v with
    | unset =>
      have : v2 = RVec.unset := by rw [← h2]; rfl
      rw [this]
      rfl
    | empty =>
      have : v2 = RVec.empty := by rw [← h2]; rfl
      rw [this]
      rfl
    | active cs =>
      have hshape := rvec_none_shape step (.active cs) (by intro hc; exact RVec.noConfusion hc) h1
      rw [h2] at hshape
      exact rvec_stuck step v2 hshape
  · intro c s s2 qs h
    have hd := jdl_resolve_next_none_done c s s2 qs h
    exact ⟨hd, by rw [hd]; rfl⟩

/-- C8 witness: concrete exhausted instances of each resolvable kind — the
theorem applied at a spent IP literal, a drained vector, and A/AAAA, SRV,
NAPTR resolvables and a just-domain machine that just returned `none` against
a client with no records. -/
theorem c8_exhaustion_terminal_witness :
    (ResolvableIpAddr.resolve_next
        { ip_addr := "192.0.2.7", port := 5060, transport := .udp, ttl := 300,
          spent := true }) =
      (none,
        { ip_addr := "192.0.2.7", port := 5060, transport := .udp, ttl := 300,
          spent := true }) ∧
    RVec.resolve_next ripStep (RVec.active []) = (none, RVec.active [], []) ∧
    (ResolvableAddrRecord.resolve_next nullClient
        { domain := "example.com", port := 5060, transport := .udp,
          resolvable_ip_addrs := .empty }) =
      (none,
        { domain := "example.com", port := 5060, transport := .udp,
          resolvable_ip_addrs := .empty }, []) ∧
    (ResolvableSrvRecord.resolve_next nullClient
        { domain := c3SrvDomain, resolvable_addr_records := .empty }) =
      (none, { domain := c3SrvDomain, resolvable_addr_records := .empty }, []) ∧
    (ResolvableNaptrRecord.resolve_next nullClient
        { domain := "example.com", available_transports := [.udp],
          resolvable_srv_records := .empty }) =
      (none,
        { domain := "example.com", available_transports := [.udp],
          resolvable_srv_records := .empty }, []) ∧
    JdlState.resolve_next nullClient .done = (none, .done, []) := by
  refine ⟨?_, ?_, ?_, ?_, ?_, ?_⟩
  · exact c8_exhaustion_terminal.1
      { ip_addr := "192.0.2.7", port := 5060, transport := .udp, ttl := 300, spent := true }
      _ (by decide)
  · exact c8_exhaustion_terminal.2.1 ResolvableIpAddr ripStep
      (RVec.active
        [{ ip_addr := "192.0.2.7", port := 5060, transport := .udp, ttl := 300,
           spent := true }])
      (RVec.active []) [] (by decide)
  · exact c8_exhaustion_terminal.2.2.1 nullClient
      { domain := "example.com", port := 5060, transport := .udp,
        resolvable_ip_addrs := .unset }
      { domain := "example.com", port := 5060, transport := .udp,
        resolvable_ip_addrs := .empty }
      [.ipQ "example.com"] (by decide)
  · exact c8_exhaustion_terminal.2.2.2.1 nullClient
      { domain := c3SrvDomain, resolvable_addr_records := .unset }
      { domain := c3SrvDomain, resolvable_addr_records := .empty }
      [.srvQ c3SrvDomain] (by decide)
  · exact c8_exhaustion_terminal.2.2.2.2.1 nullClient
      { domain := "example.com", available_transports := [.udp],
        resolvable_srv_records := .unset }
      { domain := "example.com", available_transports := [.udp],
        resolvable_srv_records := .empty }
      [.naptrQ "example.com"] (by decide)
  · exact (c8_exhaustion_terminal.2.2.2.2.2 nullClient .done .done [] (by decide)).2

/-! ### Invariant lemmas for TTL propagation and glue short-circuiting -/

/-- Driving a vector whose children all satisfy an invariant `G` that is
preserved by the child step, issues no queries, and makes every emitted
target satisfy `Pt`, yields an active vector of `G`-children, no queries, and
a `Pt` target. -/
theorem rvecGo_inv {σ : Type} (step : σ → Option Target × σ × List Query)
    (G : σ → Prop) (Pt : Target → Prop)
    (hstep : ∀ x, G x → (step x).2.2 = [] ∧ G (step x).2.1 ∧
      ∀ t, (step x).1 = some t → Pt t) :
    ∀ cs : List σ, (∀ x ∈ cs, G x) →
      (rvecGo step cs).2.2 = [] ∧
      (∃ cs2, (rvecGo step cs).2.1 = RVec.active cs2 ∧ ∀ x ∈ cs2, G x) ∧
      ∀ t, (rvecGo step cs).1 = some t → Pt t := by
  intro cs
  induction cs with
  | nil =>
    intro _
    exact ⟨rfl, ⟨[], rfl, by intro x hx; exact absurd hx (by simp)⟩,
      fun t ht => Option.noConfusion ht⟩
  | cons c rest ih =>
    intro hall
    have hc := hstep c (hall c (by simp))
    rcases hs : step c with ⟨t, c2, qs⟩
    rw [hs] at hc
    cases t with
    | some t0 =>
      simp only [rvecGo, hs]
      refine ⟨hc.1, ⟨c2 :: rest, rfl, ?_⟩, ?_⟩
      · intro x hx
        rcases List.mem_cons.mp hx with hx | hx
        · exact hx ▸ hc.2.1
        · exact hall x (by simp [hx])
      · intro t ht
        exact hc.2.2 t (by injection ht with h1; rw [h1])
    | none =>
      have hrest := ih fun x hx => hall x (by simp [hx])
      rcases hr : rvecGo step rest with ⟨t2, v2, qs2⟩
      rw [hr] at hrest
      have hq : qs = [] := hc.1
      have hq2 : qs2 = [] := hrest.1
      simp only [rvecGo, hs, hr]
      exact ⟨by simp [hq, hq2], hrest.2.1, hrest.2.2⟩

/-- The IP-literal step never queries, preserves the ttl field, and every
target it emits carries that ttl. -/
theorem ripStep_facts (x : ResolvableIpAddr) :
    (ripStep x).2.2 = [] ∧ (ripStep x).2.1.ttl = x.ttl ∧
      ∀ t, (ripStep x).1 = some t → t.ttl = x.ttl := by
  by_cases h : x.spent = true
  · simp [ripStep, ResolvableIpAddr.resolve_next, h]
  · rw [Bool.not_eq_true] at h
    refine ⟨by simp [ripStep, ResolvableIpAddr.resolve_next, h], by
      simp [ripStep, ResolvableIpAddr.resolve_next, h], ?_⟩
    intro t ht
    simp only [ripStep, ResolvableIpAddr.resolve_next, h, Bool.false_eq_true,
      if_false] at ht
    injection ht with h1
    rw [← h1]

/-- Stepping an A/AAAA resolvable whose pending vector is active with
children all satisfying `P` issues no queries, keeps the invariant, and emits
only `Pt` targets. -/
theorem addr_step_inv (c : DnsClient) (P : ResolvableIpAddr → Prop) (Pt : Target → Prop)
    (hcompat : ∀ x, P x → ∀ t, (ripStep x).1 = some t → Pt t)
    (hpres : ∀ x, P x → P (ripStep x).2.1)
    (r : ResolvableAddrRecord)
    (h : ∃ rips, r.resolvable_ip_addrs = .active rips ∧ ∀ x ∈ rips, P x) :
    (r.resolve_next c).2.2 = [] ∧
    (∃ rips2, (r.resolve_next c).2.1.resolvable_ip_addrs = .active rips2 ∧
      ∀ x ∈ rips2, P x) ∧
    ∀ t, (r.resolve_next c).1 = some t → Pt t := by
  obtain ⟨rips, hr, hall⟩ := h
  have hne : r.resolvable_ip_addrs ≠ .unset := by
    rw [hr]; intro hc; exact RVec.noConfusion hc
  have hgo := rvecGo_inv ripStep P Pt
    (fun x hx => ⟨(ripStep_facts x).1, hpres x hx, hcompat x hx⟩) rips hall
  rw [addr_step_eq c r hne, hr]
  simp only [RVec.resolve_next]
  exact ⟨hgo.1, hgo.2.1, hgo.2.2⟩

/-- Stepping an SRV resolvable whose pending vector is active with children
all satisfying `GA` (itself stable under the A/AAAA step with no queries and
`Pt` targets) issues no queries, keeps the invariant, and emits only `Pt`
targets. -/
theorem srv_step_inv (c : DnsClient) (GA : ResolvableAddrRecord → Prop)
    (Pt : Target → Prop)
    (hA : ∀ a, GA a → (a.resolve_next c).2.2 = [] ∧ GA (a.resolve_next c).2.1 ∧
      ∀ t, (a.resolve_next c).1 = some t → Pt t)
    (r : ResolvableSrvRecord)
    (h : ∃ cs, r.resolvable_addr_records = .active cs ∧ ∀ a ∈ cs, GA a) :
    (r.resolve_next c).2.2 = [] ∧
    (∃ cs2, (r.resolve_next c).2.1.resolvable_addr_records = .active cs2 ∧
      ∀ a ∈ cs2, GA a) ∧
    ∀ t, (r.resolve_next c).1 = some t → Pt t := by
  obtain ⟨cs, hr, hall⟩ := h
  have hne : r.resolvable_addr_records ≠ .unset := by
    rw [hr]; intro hc; exact RVec.noConfusion hc
  have hgo := rvecGo_inv (ResolvableAddrRecord.resolve_next c) GA Pt hA cs hall
  rw [srv_step_eq c r hne, hr]
  simp only [RVec.resolve_next]
  exact ⟨hgo.1, hgo.2.1, hgo.2.2⟩

/-- Stepping a NAPTR resolvable whose pending vector is active with children
all satisfying `GS` (stable, query-free, `Pt` targets) issues no queries,
keeps the invariant, and emits only `Pt` targets. -/
theorem naptr_step_inv (c : DnsClient) (GS : ResolvableSrvRecord → Prop)
    (Pt : Target → Prop)
    (hS : ∀ s, GS s → (s.resolve_next c).2.2 = [] ∧ GS (s.resolve_next c).2.1 ∧
      ∀ t, (s.resolve_next c).1 = some t → Pt t)
    (r : ResolvableNaptrRecord)
    (h : ∃ cs, r.resolvable_srv_records = .active cs ∧ ∀ s ∈ cs, GS s) :
    (r.resolve_next c).2.2 = [] ∧
    (∃ cs2, (r.resolve_next c).2.1.resolvable_srv_records = .active cs2 ∧
      ∀ s ∈ cs2, GS s) ∧
    ∀ t, (r.resolve_next c).1 = some t → Pt t := by
  obtain ⟨cs, hr, hall⟩ := h
  have hne : r.resolvable_srv_records ≠ .unset := by
    rw [hr]; intro hc; exact RVec.noConfusion hc
  have hgo := rvecGo_inv (ResolvableSrvRecord.resolve_next c) GS Pt hS cs hall
  rw [naptr_step_eq c r hne, hr]
  simp only [RVec.resolve_next]
  exact ⟨hgo.1, hgo.2.1, hgo.2.2⟩

/-- Draining an A/AAAA resolvable from an active `P`-vector yields only
`Pt` targets and no queries. -/
theorem drainAddr_inv (c : DnsClient) (P : ResolvableIpAddr → Prop) (Pt : Target → Prop)
    (hcompat : ∀ x, P x → ∀ t, (ripStep x).1 = some t → Pt t)
    (hpres : ∀ x, P x → P (ripStep x).2.1) :
    ∀ (fuel : Nat) (r : ResolvableAddrRecord),
      (∃ rips, r.resolvable_ip_addrs = .active rips ∧ ∀ x ∈ rips, P x) →
      (∀ t ∈ (drainAddr c fuel r).targets, Pt t) ∧ (drainAddr c fuel r).queries = [] := by
  intro fuel
  induction fuel with
  | zero =>
    intro r h
    exact ⟨by intro t ht; exact absurd ht (by simp [drainAddr]), rfl⟩
  | succ m ih =>
    intro r h
    have hstep := addr_step_inv c P Pt hcompat hpres r h
    rcases hs : r.resolve_next c with ⟨t, r2, qs⟩
    rw [hs] at hstep
    have hq : qs = [] := hstep.1
    cases t with
    | none =>
      simp only [drainAddr, hs]
      exact ⟨by intro t ht; exact absurd ht (by simp), by simp [hq]⟩
    | some t0 =>
      have hrest := ih r2 hstep.2.1
      simp only [drainAddr, hs]
      constructor
      · intro t ht
        rcases List.mem_cons.mp ht with h1 | h1
        · exact h1 ▸ hstep.2.2 t0 rfl
        · exact hrest.1 t h1
      · simp [hq, hrest.2]

/-- Draining an SRV resolvable from an active `GA`-vector yields only `Pt`
targets and no queries. -/
theorem drainSrv_inv (c : DnsClient) (GA : ResolvableAddrRecord → Prop)
    (Pt : Target → Prop)
    (hA : ∀ a, GA a → (a.resolve_next c).2.2 = [] ∧ GA (a.resolve_next c).2.1 ∧
      ∀ t, (a.resolve_next c).1 = some t → Pt t) :
    ∀ (fuel : Nat) (r : ResolvableSrvRecord),
      (∃ cs, r.resolvable_addr_records = .active cs ∧ ∀ a ∈ cs, GA a) →
      (∀ t ∈ (drainSrv c fuel r).targets, Pt t) ∧ (drainSrv c fuel r).queries = [] := by
  intro fuel
  induction fuel with
  | zero =>
    intro r h
    exact ⟨by intro t ht; exact absurd ht (by simp [drainSrv]), rfl⟩
  | succ m ih =>
    intro r h
    have hstep := srv_step_inv c GA Pt hA r h
    rcases hs : r.resolve_next c with ⟨t, r2, qs⟩
    rw [hs] at hstep
    have hq : qs = [] := hstep.1
    cases t with
    | none =>
      simp only [drainSrv, hs]
      exact ⟨by intro t ht; exact absurd ht (by simp), by simp [hq]⟩
    | some t0 =>
      have hrest := ih r2 hstep.2.1
      simp only [drainSrv, hs]
      constructor
      · intro t ht
        rcases List.mem_cons.mp ht with h1 | h1
        · exact h1 ▸ hstep.2.2 t0 rfl
        · exact hrest.1 t h1
      · simp [hq, hrest.2]

/-- Draining a NAPTR resolvable from an active `GS`-vector yields only `Pt`
targets and no queries. -/
theorem drainNaptr_inv (c : DnsClient) (GS : ResolvableSrvRecord → Prop)
    (Pt : Target → Prop)
    (hS : ∀ s, GS s → (s.resolve_next c).2.2 = [] ∧ GS (s.resolve_next c).2.1 ∧
      ∀ t, (s.resolve_next c).1 = some t → Pt t) :
    ∀ (fuel : Nat) (r : ResolvableNaptrRecord),
      (∃ cs, r.resolvable_srv_records = .active cs ∧ ∀ s ∈ cs, GS s) →
      (∀ t ∈ (drainNaptr c fuel r).targets, Pt t) ∧
        (drainNaptr c fuel r).queries = [] := by
  intro fuel
  induction fuel with
  | zero =>
    intro r h
    exact ⟨by intro t ht; exact absurd ht (by simp [drainNaptr]), rfl⟩
  | succ m ih =>
    intro r h
    have hstep := naptr_step_inv c GS Pt hS r h
    rcases hs : r.resolve_next c with ⟨t, r2, qs⟩
    rw [hs] at hstep
    have hq : qs = [] := hstep.1
    cases t with
    | none =>
      simp only [drainNaptr, hs]
      exact ⟨by intro t ht; exact absurd ht (by simp), by simp [hq]⟩
    | some t0 =>
      have hrest := ih r2 hstep.2.1
      simp only [drainNaptr, hs]
      constructor
      · intro t ht
        rcases List.mem_cons.mp ht with h1 | h1
        · exact h1 ▸ hstep.2.2 t0 rfl
        · exact hrest.1 t h1
      · simp [hq, hrest.2]

theorem addr_resolve_domain_some (c : DnsClient) (r : ResolvableAddrRecord)
    (a : AddrRecord) (h : c.ip_lookup r.domain = some a) :
    r.resolve_domain c =
      ({ r with resolvable_ip_addrs :=
          .active (a.ip_addrs.map fun ip =>
            ResolvableIpAddr.new_with_ttl ip r.port r.transport a.ttl) },
        [.ipQ r.domain]) := by
  unfold ResolvableAddrRecord.resolve_domain
  rw [h]

theorem addr_resolve_domain_none (c : DnsClient) (r : ResolvableAddrRecord)
    (h : c.ip_lookup r.domain = none) :
    r.resolve_domain c =
      ({ r with resolvable_ip_addrs := .empty }, [.ipQ r.domain]) := by
  unfold ResolvableAddrRecord.resolve_domain
  rw [h]

theorem addr_live_first (c : DnsClient) (d : Domain) (p : Port) (tr : Transport)
    (a : AddrRecord) (h : c.ip_lookup d = some a) :
    (ResolvableAddrRecord.new d p tr).resolve_next c =
      ((rvecGo ripStep
          (a.ip_addrs.map fun ip => ResolvableIpAddr.new_with_ttl ip p tr a.ttl)).1,
       { domain := d, port := p, transport := tr,
         resolvable_ip_addrs :=
           (rvecGo ripStep
             (a.ip_addrs.map fun ip => ResolvableIpAddr.new_with_ttl ip p tr a.ttl)).2.1 },
       Query.ipQ d ::
         (rvecGo ripStep
           (a.ip_addrs.map fun ip => ResolvableIpAddr.new_with_ttl ip p tr a.ttl)).2.2) := by
  unfold ResolvableAddrRecord.new ResolvableAddrRecord.resolve_next
    ResolvableAddrRecord.resolve_domain RVec.is_unset
  dsimp only
  rw [h]
  rfl

/-- When every processed `(target, port)` pair comes from an entry of the
record and has glue, every A/AAAA child built by `srvAddrChildren` is
pre-resolved: an active vector of IP literals carrying the glue ttl of its
entry. -/
theorem srvAddrChildren_glue (rec : SrvRecord) :
    ∀ l : List (Domain × Port),
      (∀ dp ∈ l, ∃ e, e ∈ rec.entries ∧ dp = (e.target, e.port)) →
      (∀ dp ∈ l, (rec.get_additional_for_target dp.1).isSome = true) →
      ∀ a ∈ srvAddrChildren rec l,
        ∃ rips, a.resolvable_ip_addrs = .active rips ∧
          ∀ x ∈ rips, ∃ e, e ∈ rec.entries ∧ ∃ ar,
            rec.get_additional_for_target e.target = some ar ∧ x.ttl = ar.ttl := by
  intro l
  induction l with
  | nil =>
    intro _ _ a ha
    exact absurd ha (by simp [srvAddrChildren])
  | cons dp rest ih =>
    rcases dp with ⟨d0, p0⟩
    intro h1 h2 a ha
    obtain ⟨e, he, hdp⟩ := h1 (d0, p0) (by simp)
    have hg := h2 (d0, p0) (by simp)
    rcases hga : rec.get_additional_for_target d0 with _ | ar
    · rw [hga] at hg
      exact absurd hg (by simp)
    · simp only [srvAddrChildren, hga] at ha
      rcases List.mem_append.mp ha with hl | hr
      · obtain ⟨ip, -, hx⟩ := List.mem_map.mp hl
        refine ⟨[ResolvableIpAddr.new_with_ttl ip p0 rec.transport ar.ttl], by
          rw [← hx]; rfl, ?_⟩
        intro x hx2
        have hxe : x = ResolvableIpAddr.new_with_ttl ip p0 rec.transport ar.ttl := by
          simpa using hx2
        have hde : d0 = e.target := by
          injection hdp with hd hp
        refine ⟨e, he, ar, ?_, by rw [hxe]; rfl⟩
        rw [← hde]
        exact hga
      · exact ih (fun dp h => h1 dp (by simp [h])) (fun dp h => h2 dp (by simp [h])) a hr

/-- The glue invariant on IP-literal children for a fixed SrvRecord: the rip
carries the glue ttl of one of the record's entries. -/
def GlueRip (rec : SrvRecord) (x : ResolvableIpAddr) : Prop :=
  ∃ e, e ∈ rec.entries ∧ ∃ ar,
    rec.get_additional_for_target e.target = some ar ∧ x.ttl = ar.ttl

/-- The glue invariant on targets for a fixed SrvRecord. -/
def GlueTarget (rec : SrvRecord) (t : Target) : Prop :=
  ∃ e, e ∈ rec.entries ∧ ∃ ar,
    rec.get_additional_for_target e.target = some ar ∧ t.ttl = ar.ttl

/-- The glue invariant on A/AAAA children for a fixed SrvRecord. -/
def GlueAddr (rec : SrvRecord) (a : ResolvableAddrRecord) : Prop :=
  ∃ rips, a.resolvable_ip_addrs = .active rips ∧ ∀ x ∈ rips, GlueRip rec x

theorem glueAddr_step (c : DnsClient) (rec : SrvRecord) :
    ∀ a, GlueAddr rec a → (a.resolve_next c).2.2 = [] ∧
      GlueAddr rec (a.resolve_next c).2.1 ∧
      ∀ t, (a.resolve_next c).1 = some t → GlueTarget rec t := by
  intro a ha
  have := addr_step_inv c (GlueRip rec) (GlueTarget rec)
    (fun x hx t ht => by
      obtain ⟨e, he, ar, hga, hxt⟩ := hx
      exact ⟨e, he, ar, hga, by rw [(ripStep_facts x).2.2 t ht, hxt]⟩)
    (fun x hx => by
      obtain ⟨e, he, ar, hga, hxt⟩ := hx
      exact ⟨e, he, ar, hga, by rw [(ripStep_facts x).2.1, hxt]⟩)
    a ha
  exact this

/-- C5: TTL propagation.  (a) Every Target produced by an A/AAAA resolvable
via a live `ip_lookup` carries the ttl of the AddrRecord the lookup returned.
(b) Every Target produced from ADDITIONAL-section glue (a pre-fetched
SrvRecord whose `additional_hosts` covers every entry target) carries the
ttl of the glue AddrRecord of one of the record's entries.  (c) A Target or
IP-literal resolvable built without an explicit TTL carries ttl = 300. -/
theorem c5_ttl_propagation :
    (∀ (c : DnsClient) (d : Domain) (p : Port) (tr : Transport) (a : AddrRecord)
      (fuel : Nat), c.ip_lookup d = some a →
      ∀ t ∈ (drainAddr c fuel (ResolvableAddrRecord.new d p tr)).targets,
        t.ttl = a.ttl) ∧
    (∀ (c : DnsClient) (rec : SrvRecord) (fuel : Nat),
      (∀ e ∈ rec.entries, (rec.get_additional_for_target e.target).isSome = true) →
      ∀ t ∈ (drainSrv c fuel (ResolvableSrvRecord.from_srv_record rec)).targets,
        GlueTarget rec t) ∧
    (∀ (ip : IpAddr) (p : Port) (tr : Transport),
      (Target.ofTriple ip p tr).ttl = 300 ∧ (ResolvableIpAddr.new ip p tr).ttl = 300) := by
  refine ⟨?_, ?_, fun ip p tr => ⟨rfl, rfl⟩⟩
  · intro c d p tr a fuel h
    cases fuel with
    | zero =>
      intro t ht
      exact absurd ht (by simp [drainAddr])
    | succ m =>
      have hs := addr_live_first c d p tr a h
      have hgo := rvecGo_inv ripStep (fun x => x.ttl = a.ttl) (fun t => t.ttl = a.ttl)
        (fun x hx => ⟨(ripStep_facts x).1, ((ripStep_facts x).2.1).trans hx,
          fun t ht => ((ripStep_facts x).2.2 t ht).trans hx⟩)
        (a.ip_addrs.map fun ip => ResolvableIpAddr.new_with_ttl ip p tr a.ttl)
        (by
          intro x hx
          obtain ⟨ip, -, hxe⟩ := List.mem_map.mp hx
          rw [← hxe]
          rfl)
      rcases hz : rvecGo ripStep
          (a.ip_addrs.map fun ip => ResolvableIpAddr.new_with_ttl ip p tr a.ttl) with
        ⟨t0, v0, qs0⟩
      rw [hz] at hgo
      have hs2 : (ResolvableAddrRecord.new d p tr).resolve_next c =
          (t0, { domain := d, port := p, transport := tr, resolvable_ip_addrs := v0 },
            Query.ipQ d :: qs0) := by
        rw [hs, hz]
      cases t0 with
      | none =>
        intro t ht
        simp only [drainAddr, hs2] at ht
        exact absurd ht (by simp)
      | some tt =>
        intro t ht
        simp only [drainAddr, hs2] at ht
        rcases List.mem_cons.mp ht with h1 | h1
        · exact h1 ▸ hgo.2.2 tt rfl
        · obtain ⟨cs2, hv0, hcs2⟩ := hgo.2.1
          have := drainAddr_inv c (fun x => x.ttl = a.ttl) (fun t => t.ttl = a.ttl)
            (fun x hx t ht2 => ((ripStep_facts x).2.2 t ht2).trans hx)
            (fun x hx => ((ripStep_facts x).2.1).trans hx) m
            { domain := d, port := p, transport := tr, resolvable_ip_addrs := v0 }
            ⟨cs2, hv0, hcs2⟩
          exact this.1 t h1
  · intro c rec fuel hglue
    have hinit : ∀ a ∈ srvAddrChildren rec rec.domains_with_ports, GlueAddr rec a := by
      intro a ha
      refine srvAddrChildren_glue rec rec.domains_with_ports ?_ ?_ a ha
      · intro dp hdp
        obtain ⟨e, he, hdpe⟩ := List.mem_map.mp hdp
        exact ⟨e, he, hdpe.symm⟩
      · intro dp hdp
        obtain ⟨e, he, hdpe⟩ := List.mem_map.mp hdp
        rw [← hdpe]
        exact hglue e he
    have := drainSrv_inv c (GlueAddr rec) (GlueTarget rec) (glueAddr_step c rec) fuel
      (ResolvableSrvRecord.from_srv_record rec)
      ⟨srvAddrChildren rec rec.domains_with_ports, rfl, hinit⟩
    exact this.1

/-- C5 witness: the live path against the S4 client propagates TTL 60; the
glue path on the C6 SrvRecord (complete additional_hosts) yields only
glue-ttl targets; the untimed constructors default to 300. -/
theorem c5_ttl_propagation_witness :
    (∀ t ∈ (drainAddr s4Client 3
        (ResolvableAddrRecord.new "t.example.com" 5060 .tcp)).targets, t.ttl = 60) ∧
    (∀ t ∈ (drainSrv nullClient 4
        (ResolvableSrvRecord.from_srv_record c6SrvRec)).targets, GlueTarget c6SrvRec t) ∧
    (Target.ofTriple "192.0.2.1" 5060 .udp).ttl = 300 ∧
    (ResolvableIpAddr.new "192.0.2.1" 5060 .udp).ttl = 300 := by
  refine ⟨?_, ?_, (c5_ttl_propagation.2.2 "192.0.2.1" 5060 .udp).1,
    (c5_ttl_propagation.2.2 "192.0.2.1" 5060 .udp).2⟩
  · exact c5_ttl_propagation.1 s4Client "t.example.com" 5060 .tcp
      { domain := "t.example.com", ttl := 60, ip_addrs := ["198.51.100.9"] } 3 (by decide)
  · exact c5_ttl_propagation.2.1 nullClient c6SrvRec 4 (by decide)

/-- The no-I/O invariant on A/AAAA children: the pending vector was already
initialized, so no query can ever be issued. -/
def NoIoAddr (a : ResolvableAddrRecord) : Prop :=
  ∃ rips, a.resolvable_ip_addrs = .active rips

/-- The no-I/O invariant on SRV children. -/
def NoIoSrv (s : ResolvableSrvRecord) : Prop :=
  ∃ cs, s.resolvable_addr_records = .active cs ∧ ∀ a ∈ cs, NoIoAddr a

theorem noIoAddr_step (c : DnsClient) :
    ∀ a, NoIoAddr a → (a.resolve_next c).2.2 = [] ∧ NoIoAddr (a.resolve_next c).2.1 ∧
      ∀ t, (a.resolve_next c).1 = some t → True := by
  intro a ha
  obtain ⟨rips, hr⟩ := ha
  have := addr_step_inv c (fun _ => True) (fun _ => True)
    (fun x _ t _ => trivial) (fun x _ => trivial) a ⟨rips, hr, fun x _ => trivial⟩
  obtain ⟨rips2, hr2, -⟩ := this.2.1
  exact ⟨this.1, ⟨rips2, hr2⟩, fun t _ => trivial⟩

theorem noIoSrv_step (c : DnsClient) :
    ∀ s, NoIoSrv s → (s.resolve_next c).2.2 = [] ∧ NoIoSrv (s.resolve_next c).2.1 ∧
      ∀ t, (s.resolve_next c).1 = some t → True := by
  intro s hs
  have := srv_step_inv c NoIoAddr (fun _ => True) (noIoAddr_step c) s hs
  exact ⟨this.1, this.2.1, fun t _ => trivial⟩

theorem naptr_resolve_domain_some (c : DnsClient) (r : ResolvableNaptrRecord)
    (rec : NaptrRecord) (h : c.naptr_lookup r.domain = some rec) :
    r.resolve_domain c =
      ({ r with resolvable_srv_records :=
          .active (naptrChildren r.available_transports rec) },
        [.naptrQ r.domain]) := by
  unfold ResolvableNaptrRecord.resolve_domain
  rw [h]

theorem naptr_live_first (c : DnsClient) (d : Domain) (tps : List Transport)
    (rec : NaptrRecord) (h : c.naptr_lookup d = some rec) :
    (ResolvableNaptrRecord.new d tps).resolve_next c =
      ((rvecGo (ResolvableSrvRecord.resolve_next c) (naptrChildren tps rec)).1,
       { domain := d, available_transports := tps,
         resolvable_srv_records :=
           (rvecGo (ResolvableSrvRecord.resolve_next c) (naptrChildren tps rec)).2.1 },
       Query.naptrQ d ::
         (rvecGo (ResolvableSrvRecord.resolve_next c) (naptrChildren tps rec)).2.2) := by
  unfold ResolvableNaptrRecord.new ResolvableNaptrRecord.resolve_next
    ResolvableNaptrRecord.resolve_domain RVec.is_unset
  dsimp only
  rw [h]
  rfl

/-- C6: when the NAPTR record carries a glue SrvRecord for every surviving
entry's SrvDomain, and each such SrvRecord carries glue A/AAAA records for
every SRV target, draining the whole resolution (any amount of fuel — in
particular to `none`) issues exactly one DNS call, the NAPTR lookup: no
`srv_lookup` and no `ip_lookup` is ever issued. -/
theorem c6_glue_single_query (c : DnsClient) (d : Domain) (tps : List Transport)
    (rec : NaptrRecord) (fuel : Nat) (h : c.naptr_lookup d = some rec)
    (hglue : ∀ e ∈ naptrSurvivors tps rec.iter,
      ∃ srvRec, rec.get_additional_srv e.srvDomain = some srvRec ∧
        ∀ e2 ∈ srvRec.entries, (srvRec.get_additional_for_target e2.target).isSome = true)
    (hfuel : 1 ≤ fuel) :
    (drainNaptr c fuel (ResolvableNaptrRecord.new d tps)).queries = [.naptrQ d] := by
  rcases fuel with - | m
  · exact absurd hfuel (by simp)
  have hchildren : ∀ s ∈ naptrChildren tps rec, NoIoSrv s := by
    intro s hs
    obtain ⟨e, he, hse⟩ := List.mem_map.mp hs
    obtain ⟨srvRec, hget, hin⟩ := hglue e he
    rw [hget] at hse
    rw [← hse]
    refine ⟨srvAddrChildren srvRec srvRec.domains_with_ports, rfl, ?_⟩
    intro a ha
    have := srvAddrChildren_glue srvRec srvRec.domains_with_ports
      (by
        intro dp hdp
        obtain ⟨e2, he2, hdpe⟩ := List.mem_map.mp hdp
        exact ⟨e2, he2, hdpe.symm⟩)
      (by
        intro dp hdp
        obtain ⟨e2, he2, hdpe⟩ := List.mem_map.mp hdp
        rw [← hdpe]
        exact hin e2 he2)
      a ha
    obtain ⟨rips, hr, -⟩ := this
    exact ⟨rips, hr⟩
  have hs := naptr_live_first c d tps rec h
  have hgo := rvecGo_inv (ResolvableSrvRecord.resolve_next c) NoIoSrv (fun _ => True)
    (noIoSrv_step c) (naptrChildren tps rec) hchildren
  rcases hz : rvecGo (ResolvableSrvRecord.resolve_next c) (naptrChildren tps rec) with
    ⟨t0, v0, qs0⟩
  rw [hz] at hgo
  have hq0 : qs0 = [] := hgo.1
  have hs2 : (ResolvableNaptrRecord.new d tps).resolve_next c =
      (t0, { domain := d, available_transports := tps, resolvable_srv_records := v0 },
        Query.naptrQ d :: qs0) := by
    rw [hs, hz]
  cases t0 with
  | none =>
    simp only [drainNaptr, hs2]
    simp [hq0]
  | some tt =>
    obtain ⟨cs2, hv0, hcs2⟩ := hgo.2.1
    have hrest := drainNaptr_inv c NoIoSrv (fun _ => True) (noIoSrv_step c) m
      { domain := d, available_transports := tps, resolvable_srv_records := v0 }
      ⟨cs2, hv0, hcs2⟩
    simp only [drainNaptr, hs2]
    simp [hq0, hrest.2]

/-- C6 witness: against the recursive-style client serving the fully glued
NAPTR record for `example.com`, a drain of the whole resolution issues
exactly the single NAPTR query. -/
theorem c6_glue_single_query_witness :
    (drainNaptr c6Client 6 (ResolvableNaptrRecord.new "example.com" [.tls])).queries =
      [.naptrQ "example.com"] := by
  refine c6_glue_single_query c6Client "example.com" [.tls] c6NaptrRec 6 (by decide) ?_
    (by decide)
  intro e he
  have hs : naptrSurvivors [.tls] c6NaptrRec.iter = [c6NaptrEntry] := by decide
  rw [hs] at he
  have : e = c6NaptrEntry := by simpa using he
  rw [this]
  exact ⟨c6SrvRec, by decide, by decide⟩

/-! ### Lemmas for the just-domain fallback invariant -/

theorem tagAll_mem (p : Phase) (qs : List Query) : ∀ x ∈ tagAll p qs, x.1 = p := by
  intro x hx
  obtain ⟨q, -, hq⟩ := List.mem_map.mp hx
  rw [← hq]

theorem selPhase_eq_nil_iff (p : Phase) (l : List (Phase × α)) :
    selPhase p l = [] ↔ ∀ x ∈ l, x.1 ≠ p := by
  induction l with
  | nil => simp [selPhase]
  | cons y rest ih =>
    by_cases hy : y.1 = p
    · constructor
      · intro h
        exfalso
        simp only [selPhase, List.filter_cons, hy, decide_True, if_true,
          List.map_cons] at h
        exact List.noConfusion h
      · intro h
        exact absurd hy (h y (by simp))
    · simp only [selPhase, List.filter_cons, decide_eq_true_eq, hy, if_false]
      simp only [selPhase] at ih
      rw [ih]
      constructor
      · intro h x hx
        rcases List.mem_cons.mp hx with h1 | h1
        · rw [h1]; exact hy
        · exact h x h1
      · intro h x hx
        exact h x (by simp [hx])

theorem selPhase_ne_nil_of_mem (p : Phase) (l : List (Phase × α)) (x : Phase × α)
    (hx : x ∈ l) (hp : x.1 = p) : selPhase p l ≠ [] := by
  intro h
  exact (selPhase_eq_nil_iff p l).mp h x hx hp

theorem rvecGo_active {σ : Type} (step : σ → Option Target × σ × List Query)
    (cs : List σ) : ∃ cs2, (rvecGo step cs).2.1 = RVec.active cs2 := by
  induction cs with
  | nil => exact ⟨[], rfl⟩
  | cons c rest ih =>
    rcases hstep : step c with ⟨t, c2, qs⟩
    cases t with
    | some t0 =>
      refine ⟨c2 :: rest, ?_⟩
      simp only [rvecGo, hstep]
    | none =>
      obtain ⟨cs2, hcs2⟩ := ih
      rcases hrest : rvecGo step rest with ⟨t2, v2, qs2⟩
      rw [hrest] at hcs2
      refine ⟨cs2, ?_⟩
      simp only [rvecGo, hstep, hrest]
      exact hcs2

theorem rvecGo_rip_qs (cs : List ResolvableIpAddr) :
    (rvecGo ripStep cs).2.2 = [] := by
  have := rvecGo_inv ripStep (fun _ => True) (fun _ => True)
    (fun x _ => ⟨(ripStep_facts x).1, trivial, fun _ _ => trivial⟩) cs
    (fun x _ => trivial)
  exact this.1

/-- The first drive of a fresh A/AAAA resolvable issues exactly its
`ip_lookup` query, whatever the outcome. -/
theorem addr_first_query (c : DnsClient) (r : ResolvableAddrRecord)
    (hu : r.resolvable_ip_addrs = .unset) :
    (r.resolve_next c).2.2 = [Query.ipQ r.domain] := by
  have hiu : r.resolvable_ip_addrs.is_unset = true := by rw [hu]; rfl
  unfold ResolvableAddrRecord.resolve_next
  rw [hiu]
  simp only [if_true]
  rcases hlk : c.ip_lookup r.domain with - | a
  · rw [addr_resolve_domain_none c r hlk]
    rfl
  · rw [addr_resolve_domain_some c r a hlk]
    simp only [RVec.resolve_next]
    rw [rvecGo_rip_qs]
    rfl

theorem naptr_none_first (c : DnsClient) (d : Domain) (tps : List Transport)
    (h : c.naptr_lookup d = none) :
    (ResolvableNaptrRecord.new d tps).resolve_next c =
      (none,
        { domain := d, available_transports := tps, resolvable_srv_records := .empty },
        [Query.naptrQ d]) := by
  unfold ResolvableNaptrRecord.new ResolvableNaptrRecord.resolve_next
    ResolvableNaptrRecord.resolve_domain RVec.is_unset
  dsimp only
  rw [h]
  rfl

/-- Runs from the A/AAAA-fallback state only ever touch the addr phase. -/
theorem addrRun (c : DnsClient) : ∀ (fuel : Nat) (a : ResolvableAddrRecord),
    (∀ x ∈ (jdlDrain c fuel (.tryingAddrFallback a)).targets, x.1 = Phase.addrP) ∧
    (∀ x ∈ (jdlDrain c fuel (.tryingAddrFallback a)).queries, x.1 = Phase.addrP) := by
  intro fuel
  induction fuel with
  | zero =>
    intro a
    exact ⟨by simp [jdlDrain], by simp [jdlDrain]⟩
  | succ m ih =>
    intro a
    rcases hstep : a.resolve_next c with ⟨t, a2, qs⟩
    cases t with
    | some t0 =>
      have hs : JdlState.resolve_next c (.tryingAddrFallback a) =
          (some (.addrP, t0), .tryingAddrFallback a2, tagAll .addrP qs) := by
        simp only [JdlState.resolve_next, addrFallbackStep, hstep]
      simp only [jdlDrain, hs]
      constructor
      · intro x hx
        rcases List.mem_cons.mp hx with h1 | h1
        · rw [h1]
        · exact (ih a2).1 x h1
      · intro x hx
        rcases List.mem_append.mp hx with h1 | h1
        · exact tagAll_mem _ _ x h1
        · exact (ih a2).2 x h1
    | none =>
      have hs : JdlState.resolve_next c (.tryingAddrFallback a) =
          (none, .done, tagAll .addrP qs) := by
        simp only [JdlState.resolve_next, addrFallbackStep, hstep]
      simp only [jdlDrain, hs]
      exact ⟨by simp, fun x hx => tagAll_mem _ _ x hx⟩

/-- One call of the SRV-fallback walker (with a fresh A/AAAA fallback) ends
in exactly one of three ways: an SRV-phase target with the flag set, an
addr-phase target reached because no fallback had produced and all SRV
fallbacks were exhausted, or exhaustion into Done — with the addr phase
touched exactly in the `any_produced = false` exhaustion cases. -/
theorem srvFallbacksStep_cases (c : DnsClient) (addrF : ResolvableAddrRecord)
    (hu : addrF.resolvable_ip_addrs = RVec.unset) :
    ∀ (pending : List ResolvableSrvRecord) (anyp : Bool),
    (∃ t0 p2 qs, srvFallbacksStep c addrF anyp pending =
        (some (.srvP, t0), .tryingSrvFallbacks p2 true addrF, qs) ∧
      ∀ x ∈ qs, x.1 = Phase.srvP) ∨
    (∃ t0 a2 qs, anyp = false ∧ srvFallbacksStep c addrF anyp pending =
        (some (.addrP, t0), .tryingAddrFallback a2, qs) ∧
      (∃ x ∈ qs, x.1 = Phase.addrP) ∧
      ∀ x ∈ qs, x.1 = Phase.srvP ∨ x.1 = Phase.addrP) ∨
    (∃ qs, srvFallbacksStep c addrF anyp pending = (none, .done, qs) ∧
      ((anyp = true ∧ ∀ x ∈ qs, x.1 = Phase.srvP) ∨
       (anyp = false ∧ (∃ x ∈ qs, x.1 = Phase.addrP) ∧
         ∀ x ∈ qs, x.1 = Phase.srvP ∨ x.1 = Phase.addrP))) := by
  intro pending
  induction pending with
  | nil =>
    intro anyp
    cases anyp with
    | true =>
      refine Or.inr (Or.inr ⟨[], ?_, Or.inl ⟨rfl, by simp⟩⟩)
      simp [srvFallbacksStep]
    | false =>
      rcases hstep : addrF.resolve_next c with ⟨t, a2, qs⟩
      have hq : qs = [Query.ipQ addrF.domain] := by
        have := addr_first_query c addrF hu
        rw [hstep] at this
        exact this
      cases t with
      | some t0 =>
        refine Or.inr (Or.inl ⟨t0, a2, tagAll .addrP qs, rfl, ?_, ?_, ?_⟩)
        · simp [srvFallbacksStep, addrFallbackStep, hstep]
        · exact ⟨(Phase.addrP, Query.ipQ addrF.domain), by simp [hq, tagAll], rfl⟩
        · exact fun x hx => Or.inr (tagAll_mem _ _ x hx)
      | none =>
        refine Or.inr (Or.inr ⟨tagAll .addrP qs, ?_, Or.inr ⟨rfl, ?_, ?_⟩⟩)
        · simp [srvFallbacksStep, addrFallbackStep, hstep]
        · exact ⟨(Phase.addrP, Query.ipQ addrF.domain), by simp [hq, tagAll], rfl⟩
        · exact fun x hx => Or.inr (tagAll_mem _ _ x hx)
  | cons s rest ih =>
    intro anyp
    rcases hstep : s.resolve_next c with ⟨t, s2, qs⟩
    cases t with
    | some t0 =>
      refine Or.inl ⟨t0, s2 :: rest, tagAll .srvP qs, ?_, fun x hx => tagAll_mem _ _ x hx⟩
      simp [srvFallbacksStep, hstep]
    | none =>
      rcases ih anyp with ⟨t0, p2, qs3, heq, hall⟩ | ⟨t0, a2, qs3, hany, heq, hex, hall⟩ |
        ⟨qs3, heq, hcase⟩
      · refine Or.inl ⟨t0, p2, tagAll .srvP qs ++ qs3, ?_, ?_⟩
        · simp [srvFallbacksStep, hstep, heq]
        · intro x hx
          rcases List.mem_append.mp hx with h1 | h1
          · exact tagAll_mem _ _ x h1
          · exact hall x h1
      · refine Or.inr (Or.inl ⟨t0, a2, tagAll .srvP qs ++ qs3, hany, ?_, ?_, ?_⟩)
        · simp [srvFallbacksStep, hstep, heq]
        · obtain ⟨x, hx, hxp⟩ := hex
          exact ⟨x, by simp [hx], hxp⟩
        · intro x hx
          rcases List.mem_append.mp hx with h1 | h1
          · exact Or.inl (tagAll_mem _ _ x h1)
          · exact hall x h1
      · refine Or.inr (Or.inr ⟨tagAll .srvP qs ++ qs3, ?_, ?_⟩)
        · simp [srvFallbacksStep, hstep, heq]
        · rcases hcase with ⟨ha, hall⟩ | ⟨ha, hex, hall⟩
          · refine Or.inl ⟨ha, ?_⟩
            intro x hx
            rcases List.mem_append.mp hx with h1 | h1
            · exact tagAll_mem _ _ x h1
            · exact hall x h1
          · refine Or.inr ⟨ha, ?_, ?_⟩
            · obtain ⟨x, hx, hxp⟩ := hex
              exact ⟨x, by simp [hx], hxp⟩
            · intro x hx
              rcases List.mem_append.mp hx with h1 | h1
              · exact Or.inl (tagAll_mem _ _ x h1)
              · exact hall x h1

theorem jdl_step_srvState (c : DnsClient) (pending : List ResolvableSrvRecord)
    (anyp : Bool) (addrF : ResolvableAddrRecord) :
    JdlState.resolve_next c (.tryingSrvFallbacks pending anyp addrF) =
      srvFallbacksStep c addrF anyp pending := rfl

/-- Completed runs from the SRV-fallback stage (with a fresh A/AAAA
fallback): the addr phase is touched exactly when no SRV fallback has
produced and none produces during the run; targets and queries stay in the
srv/addr phases; and an SRV-phase target forbids addr-phase queries. -/
theorem srvRun (c : DnsClient) (addrF : ResolvableAddrRecord)
    (hu : addrF.resolvable_ip_addrs = RVec.unset) :
    ∀ (fuel : Nat) (pending : List ResolvableSrvRecord) (anyp : Bool) (R : JdlRun),
    R = jdlDrain c fuel (.tryingSrvFallbacks pending anyp addrF) →
    R.final.isDone = true →
    (selPhase .addrP R.queries ≠ [] ↔
      (anyp = false ∧ selPhase .srvP R.targets = [])) ∧
    (∀ x ∈ R.targets, x.1 = Phase.srvP ∨ x.1 = Phase.addrP) ∧
    (∀ x ∈ R.queries, x.1 = Phase.srvP ∨ x.1 = Phase.addrP) ∧
    (selPhase .srvP R.targets ≠ [] → selPhase .addrP R.queries = []) := by
  intro fuel
  induction fuel with
  | zero =>
    intro pending anyp R hR hdone
    rw [hR] at hdone
    simp [jdlDrain, JdlState.isDone] at hdone
  | succ m ih =>
    intro pending anyp R hR hdone
    subst hR
    rcases srvFallbacksStep_cases c addrF hu pending anyp with
      ⟨t0, p2, qs, heq, hall⟩ | ⟨t0, a2, qs, hany, heq, hex, hall⟩ | ⟨qs, heq, hcase⟩
    · simp only [jdlDrain, jdl_step_srvState, heq] at hdone ⊢
      have hrest := ih p2 true _ rfl hdone
      have haddr2 : selPhase .addrP
          (jdlDrain c m (.tryingSrvFallbacks p2 true addrF)).queries = [] := by
        by_cases h : selPhase .addrP
            (jdlDrain c m (.tryingSrvFallbacks p2 true addrF)).queries = []
        · exact h
        · exact absurd (hrest.1.mp h).1 (by simp)
      have hqs0 : selPhase .addrP qs = [] :=
        selPhase_eq_nil_of_all _ _ fun x hx => by rw [hall x hx]; decide
      have haddrR : selPhase .addrP
          (qs ++ (jdlDrain c m (.tryingSrvFallbacks p2 true addrF)).queries) = [] := by
        rw [selPhase_append, hqs0, haddr2]
        rfl
      refine ⟨?_, ?_, ?_, fun _ => haddrR⟩
      · refine iff_of_false (by simp [haddrR]) ?_
        rintro ⟨-, hnil⟩
        rw [selPhase_cons_self] at hnil
        exact List.noConfusion hnil
      · intro x hx
        rcases List.mem_cons.mp hx with h1 | h1
        · rw [h1]
          exact Or.inl rfl
        · exact hrest.2.1 x h1
      · intro x hx
        rcases List.mem_append.mp hx with h1 | h1
        · exact Or.inl (hall x h1)
        · exact hrest.2.2.1 x h1
    · simp only [jdlDrain, jdl_step_srvState, heq] at hdone ⊢
      have haf := addrRun c m a2
      have hsrvT : selPhase .srvP
          ((Phase.addrP, t0) :: (jdlDrain c m (.tryingAddrFallback a2)).targets) = [] := by
        refine selPhase_eq_nil_of_all _ _ ?_
        intro x hx
        rcases List.mem_cons.mp hx with h1 | h1
        · rw [h1]
          exact show Phase.addrP ≠ Phase.srvP by decide
        · rw [haf.1 x h1]; decide
      have haddrne : selPhase .addrP
          (qs ++ (jdlDrain c m (.tryingAddrFallback a2)).queries) ≠ [] := by
        obtain ⟨x, hx, hxp⟩ := hex
        exact selPhase_ne_nil_of_mem _ _ x (by simp [hx]) hxp
      refine ⟨iff_of_true haddrne ⟨hany, hsrvT⟩, ?_, ?_, ?_⟩
      · intro x hx
        rcases List.mem_cons.mp hx with h1 | h1
        · rw [h1]
          exact Or.inr rfl
        · exact Or.inr (haf.1 x h1)
      · intro x hx
        rcases List.mem_append.mp hx with h1 | h1
        · exact hall x h1
        · exact Or.inr (haf.2 x h1)
      · intro hne
        exact absurd hsrvT hne
    · simp only [jdlDrain, jdl_step_srvState, heq] at hdone ⊢
      rcases hcase with ⟨ha, hall⟩ | ⟨ha, hex, hall⟩
      · refine ⟨?_, by simp, fun x hx => Or.inl (hall x hx), ?_⟩
        · refine iff_of_false ?_ ?_
          · intro h
            exact h (selPhase_eq_nil_of_all _ _ fun x hx => by rw [hall x hx]; decide)
          · rintro ⟨hfalse, -⟩
            rw [ha] at hfalse
            exact Bool.noConfusion hfalse
        · intro h
          exact absurd rfl h
      · obtain ⟨x, hx, hxp⟩ := hex
        refine ⟨iff_of_true (selPhase_ne_nil_of_mem _ _ x hx hxp) ⟨ha, rfl⟩,
          by simp, hall, ?_⟩
        intro h
        exact absurd rfl h

/-- A live NAPTR stage — fresh with a record available, or already holding an
active vector — either stays in the NAPTR stage (remaining live) with a
naptr-phase target, or terminates the machine; it never reaches the fallback
stages. -/
theorem naptr_step_live (c : DnsClient) (n : ResolvableNaptrRecord)
    (cfg : FallbackConfig)
    (hlive : (n.resolvable_srv_records = RVec.unset ∧
        (c.naptr_lookup n.domain).isSome = true) ∨
      (∃ cs, n.resolvable_srv_records = RVec.active cs)) :
    (∃ t0 n2 qs, JdlState.resolve_next c (.tryingNaptr n cfg) =
        (some (.naptrP, t0), .tryingNaptr n2 cfg, tagAll .naptrP qs) ∧
      (∃ cs, n2.resolvable_srv_records = RVec.active cs)) ∨
    (∃ qs, JdlState.resolve_next c (.tryingNaptr n cfg) =
      (none, .done, tagAll .naptrP qs)) := by
  obtain ⟨d, tps, v⟩ := n
  rcases hlive with ⟨hun, hsome⟩ | ⟨cs, hact⟩
  · have hv : v = RVec.unset := hun
    subst hv
    rcases hlk : c.naptr_lookup d with - | rec
    · rw [show (ResolvableNaptrRecord.mk d tps RVec.unset).domain = d from rfl, hlk]
        at hsome
      exact absurd hsome (by simp)
    · have hstep := naptr_live_first c d tps rec hlk
      unfold ResolvableNaptrRecord.new at hstep
      rcases hz : rvecGo (ResolvableSrvRecord.resolve_next c) (naptrChildren tps rec) with
        ⟨t0, v0, qs0⟩
      rw [hz] at hstep
      cases t0 with
      | some tt =>
        refine Or.inl ⟨tt,
          { domain := d, available_transports := tps, resolvable_srv_records := v0 },
          Query.naptrQ d :: qs0, ?_, ?_⟩
        · simp only [JdlState.resolve_next, hstep]
        · obtain ⟨cs2, hcs2⟩ := rvecGo_active (ResolvableSrvRecord.resolve_next c)
            (naptrChildren tps rec)
          rw [hz] at hcs2
          exact ⟨cs2, hcs2⟩
      | none =>
        have hv0 : v0 = RVec.active [] := by
          have := rvecGo_none (ResolvableSrvRecord.resolve_next c)
            (naptrChildren tps rec) (by rw [hz])
          rw [hz] at this
          exact this
        subst hv0
        refine Or.inr ⟨Query.naptrQ d :: qs0, ?_⟩
        simp only [JdlState.resolve_next, hstep]
        rfl
  · have hv : v = RVec.active cs := hact
    subst hv
    have hne : (ResolvableNaptrRecord.mk d tps (RVec.active cs)).resolvable_srv_records ≠
        RVec.unset := by
      intro hc
      exact RVec.noConfusion hc
    have hstep := naptr_step_eq c (ResolvableNaptrRecord.mk d tps (RVec.active cs)) hne
    rcases hz : rvecGo (ResolvableSrvRecord.resolve_next c) cs with ⟨t0, v0, qs0⟩
    rw [show RVec.resolve_next (ResolvableSrvRecord.resolve_next c)
        (ResolvableNaptrRecord.mk d tps (RVec.active cs)).resolvable_srv_records =
      rvecGo (ResolvableSrvRecord.resolve_next c) cs from rfl, hz] at hstep
    cases t0 with
    | some tt =>
      refine Or.inl ⟨tt,
        { domain := d, available_transports := tps, resolvable_srv_records := v0 },
        qs0, ?_, ?_⟩
      · simp only [JdlState.resolve_next, hstep]
      · obtain ⟨cs2, hcs2⟩ := rvecGo_active (ResolvableSrvRecord.resolve_next c) cs
        rw [hz] at hcs2
        exact ⟨cs2, hcs2⟩
    | none =>
      have hv0 : v0 = RVec.active [] := by
        have := rvecGo_none (ResolvableSrvRecord.resolve_next c) cs (by rw [hz])
        rw [hz] at this
        exact this
      subst hv0
      refine Or.inr ⟨qs0, ?_⟩
      cases cs with
      | nil =>
        simp only [JdlState.resolve_next, hstep]
        rfl
      | cons s rest =>
        simp only [JdlState.resolve_next, hstep]
        rfl

/-- Runs from a live NAPTR stage only ever touch the naptr phase. -/
theorem naptrRun (c : DnsClient) : ∀ (fuel : Nat) (n : ResolvableNaptrRecord)
    (cfg : FallbackConfig),
    ((n.resolvable_srv_records = RVec.unset ∧
        (c.naptr_lookup n.domain).isSome = true) ∨
      (∃ cs, n.resolvable_srv_records = RVec.active cs)) →
    (∀ x ∈ (jdlDrain c fuel (.tryingNaptr n cfg)).targets, x.1 = Phase.naptrP) ∧
    (∀ x ∈ (jdlDrain c fuel (.tryingNaptr n cfg)).queries, x.1 = Phase.naptrP) := by
  intro fuel
  induction fuel with
  | zero =>
    intro n cfg hlive
    exact ⟨by simp [jdlDrain], by simp [jdlDrain]⟩
  | succ m ih =>
    intro n cfg hlive
    rcases naptr_step_live c n cfg hlive with ⟨t0, n2, qs, hs, hlive2⟩ | ⟨qs, hs⟩
    · simp only [jdlDrain, hs]
      constructor
      · intro x hx
        rcases List.mem_cons.mp hx with h1 | h1
        · rw [h1]
        · exact (ih n2 cfg (Or.inr hlive2)).1 x h1
      · intro x hx
        rcases List.mem_append.mp hx with h1 | h1
        · exact tagAll_mem _ _ x h1
        · exact (ih n2 cfg (Or.inr hlive2)).2 x h1
    · simp only [jdlDrain, hs]
      exact ⟨by simp, fun x hx => tagAll_mem _ _ x hx⟩

/-- C1: the just-domain fallback invariant.  For every DNS client and every
completed drain of the machine `JustDomainLookup::new` builds: (a) the
A/AAAA fallback on the bare domain is reached (equivalently, an addr-phase
fallback query is issued) iff the NAPTR lookup returned nothing and every SRV
fallback returned `None` (yielded no target); (b) if the NAPTR stage yields
at least one Target, no SRV fallback query (and no A/AAAA fallback query) is
ever issued; (c) if any SRV fallback yields at least one Target, no A/AAAA
fallback query on the bare domain is ever issued.  ("NAPTR returned nothing
(or was absent)" is read, as in spec §4.7, as the `naptr_lookup` returning
`None`; "A/AAAA query on the bare domain" is the fallback stage's query —
queries issued inside the NAPTR or SRV chains carry their own stage's tag.) -/
theorem c1_just_domain_fallback (c : DnsClient) (d : Domain)
    (tps ps : List Transport) (sec : Bool) (dt : Transport) (fuel : Nat)
    (hdone : (jdlRunFrom c fuel d tps ps sec dt).final.isDone = true) :
    (selPhase .addrP (jdlRunFrom c fuel d tps ps sec dt).queries ≠ [] ↔
      (c.naptr_lookup d = none ∧
        selPhase .srvP (jdlRunFrom c fuel d tps ps sec dt).targets = [])) ∧
    (selPhase .naptrP (jdlRunFrom c fuel d tps ps sec dt).targets ≠ [] →
      selPhase .srvP (jdlRunFrom c fuel d tps ps sec dt).queries = [] ∧
      selPhase .addrP (jdlRunFrom c fuel d tps ps sec dt).queries = []) ∧
    (selPhase .srvP (jdlRunFrom c fuel d tps ps sec dt).targets ≠ [] →
      selPhase .addrP (jdlRunFrom c fuel d tps ps sec dt).queries = []) := by
  unfold jdlRunFrom at hdone ⊢
  rcases hlk : c.naptr_lookup d with - | rec
  · rcases fuel with - | m
    · simp [jdlDrain, JdlState.isDone] at hdone
    · have hn1 := naptr_none_first c d tps hlk
      rcases srvFallbacksStep_cases c
          (mkAddrFallback { domain := d, available_protocols := ps, secure := sec, default_transport := dt }) rfl
          (mkSrvFallbacks { domain := d, available_protocols := ps, secure := sec, default_transport := dt }) false with
        ⟨t0, p2, qs3, heq, hall⟩ | ⟨t0, a2, qs3, -, heq, hex, hall⟩ | ⟨qs3, heq, hcase⟩
      · have hs : JdlState.resolve_next c
            (.tryingNaptr (ResolvableNaptrRecord.new d tps)
              { domain := d, available_protocols := ps, secure := sec, default_transport := dt }) =
            (some (.srvP, t0),
             .tryingSrvFallbacks p2 true
               (mkAddrFallback { domain := d, available_protocols := ps, secure := sec, default_transport := dt }),
             (Phase.naptrP, Query.naptrQ d) :: qs3) := by
          simp only [JdlState.resolve_next, hn1, heq]
          rfl
        simp only [jdlDrain, hs] at hdone ⊢
        have hrest := srvRun c
          (mkAddrFallback { domain := d, available_protocols := ps, secure := sec, default_transport := dt }) rfl m p2 true _ rfl hdone
        have haddr2 : selPhase .addrP
            (jdlDrain c m (.tryingSrvFallbacks p2 true
              (mkAddrFallback { domain := d, available_protocols := ps, secure := sec, default_transport := dt }))).queries = [] := by
          by_cases h : selPhase .addrP
              (jdlDrain c m (.tryingSrvFallbacks p2 true
                (mkAddrFallback { domain := d, available_protocols := ps, secure := sec, default_transport := dt }))).queries = []
          · exact h
          · exact absurd (hrest.1.mp h).1 (by simp)
        have hqs3 : selPhase .addrP qs3 = [] :=
          selPhase_eq_nil_of_all _ _ fun x hx => by rw [hall x hx]; decide
        have haddrR : selPhase .addrP ((Phase.naptrP, Query.naptrQ d) :: (qs3 ++
            (jdlDrain c m (.tryingSrvFallbacks p2 true
              (mkAddrFallback { domain := d, available_protocols := ps, secure := sec, default_transport := dt }))).queries)) = [] := by
          rw [selPhase_cons_ne _ _ _ _ (by decide), selPhase_append, hqs3, haddr2]
          rfl
        have hnapT : selPhase .naptrP ((Phase.srvP, t0) ::
            (jdlDrain c m (.tryingSrvFallbacks p2 true
              (mkAddrFallback { domain := d, available_protocols := ps, secure := sec, default_transport := dt }))).targets) = [] := by
          refine selPhase_eq_nil_of_all _ _ ?_
          intro x hx
          rcases List.mem_cons.mp hx with h1 | h1
          · rw [h1]
            exact show Phase.srvP ≠ Phase.naptrP by decide
          · rcases hrest.2.1 x h1 with h2 | h2 <;> rw [h2] <;> decide
        refine ⟨?_, ?_, fun _ => haddrR⟩
        · refine iff_of_false (by simp [haddrR]) ?_
          rintro ⟨-, hnil⟩
          rw [selPhase_cons_self] at hnil
          exact List.noConfusion hnil
        · intro h
          exact absurd hnapT h
      · have hs : JdlState.resolve_next c
            (.tryingNaptr (ResolvableNaptrRecord.new d tps)
              { domain := d, available_protocols := ps, secure := sec, default_transport := dt }) =
            (some (.addrP, t0), .tryingAddrFallback a2,
             (Phase.naptrP, Query.naptrQ d) :: qs3) := by
          simp only [JdlState.resolve_next, hn1, heq]
          rfl
        simp only [jdlDrain, hs] at hdone ⊢
        have haf := addrRun c m a2
        have hsrvT : selPhase .srvP ((Phase.addrP, t0) ::
            (jdlDrain c m (.tryingAddrFallback a2)).targets) = [] := by
          refine selPhase_eq_nil_of_all _ _ ?_
          intro x hx
          rcases List.mem_cons.mp hx with h1 | h1
          · rw [h1]
            exact show Phase.addrP ≠ Phase.srvP by decide
          · rw [haf.1 x h1]; decide
        have hnapT : selPhase .naptrP ((Phase.addrP, t0) ::
            (jdlDrain c m (.tryingAddrFallback a2)).targets) = [] := by
          refine selPhase_eq_nil_of_all _ _ ?_
          intro x hx
          rcases List.mem_cons.mp hx with h1 | h1
          · rw [h1]
            exact show Phase.addrP ≠ Phase.naptrP by decide
          · rw [haf.1 x h1]; decide
        have haddrne : selPhase .addrP ((Phase.naptrP, Query.naptrQ d) :: qs3 ++
            (jdlDrain c m (.tryingAddrFallback a2)).queries) ≠ [] := by
          obtain ⟨x, hx, hxp⟩ := hex
          exact selPhase_ne_nil_of_mem _ _ x (by simp [hx]) hxp
        refine ⟨iff_of_true haddrne ⟨by trivial, hsrvT⟩, ?_, ?_⟩
        · intro h
          exact absurd hnapT h
        · intro hne
          exact absurd hsrvT hne
      · have hs : JdlState.resolve_next c
            (.tryingNaptr (ResolvableNaptrRecord.new d tps)
              { domain := d, available_protocols := ps, secure := sec, default_transport := dt }) =
            (none, .done, (Phase.naptrP, Query.naptrQ d) :: qs3) := by
          simp only [JdlState.resolve_next, hn1, heq]
          rfl
        simp only [jdlDrain, hs] at hdone ⊢
        rcases hcase with ⟨hfz, -⟩ | ⟨-, hex, -⟩
        · exact Bool.noConfusion hfz
        · have haddrne : selPhase .addrP ((Phase.naptrP, Query.naptrQ d) :: qs3) ≠ [] := by
            obtain ⟨x, hx, hxp⟩ := hex
            exact selPhase_ne_nil_of_mem _ _ x (by simp [hx]) hxp
          refine ⟨iff_of_true haddrne ⟨by trivial, rfl⟩, ?_, ?_⟩
          · intro h
            exact absurd rfl h
          · intro h
            exact absurd rfl h
  · have hrun := naptrRun c fuel (ResolvableNaptrRecord.new d tps)
      { domain := d, available_protocols := ps, secure := sec, default_transport := dt }
      (Or.inl ⟨rfl, by
        rw [show (ResolvableNaptrRecord.new d tps).domain = d from rfl, hlk]
        rfl⟩)
    have haddrq : selPhase .addrP (jdlDrain c fuel
        (.tryingNaptr (ResolvableNaptrRecord.new d tps)
          { domain := d, available_protocols := ps, secure := sec, default_transport := dt })).queries = [] :=
      selPhase_eq_nil_of_all _ _ fun x hx => by rw [hrun.2 x hx]; decide
    have hsrvq : selPhase .srvP (jdlDrain c fuel
        (.tryingNaptr (ResolvableNaptrRecord.new d tps)
          { domain := d, available_protocols := ps, secure := sec, default_transport := dt })).queries = [] :=
      selPhase_eq_nil_of_all _ _ fun x hx => by rw [hrun.2 x hx]; decide
    refine ⟨?_, fun _ => ⟨hsrvq, haddrq⟩, fun _ => haddrq⟩
    refine iff_of_false (by simp [haddrq]) ?_
    rintro ⟨hnone, -⟩
    exact Option.noConfusion hnone

/-- C1 witness: the S4 scenario run (NAPTR absent, the TCP SRV fallback
produces a target) completes, keeps the SRV phase non-empty and the
A/AAAA-fallback phase query-free, exactly as the invariant requires. -/
theorem c1_just_domain_fallback_witness :
    (selPhase .addrP (jdlRunFrom s4Client 3 "example.com" [.udp, .tcp] [.udp, .tcp]
        false .udp).queries ≠ [] ↔
      (s4Client.naptr_lookup "example.com" = none ∧
        selPhase .srvP (jdlRunFrom s4Client 3 "example.com" [.udp, .tcp] [.udp, .tcp]
          false .udp).targets = [])) ∧
    (selPhase .naptrP (jdlRunFrom s4Client 3 "example.com" [.udp, .tcp] [.udp, .tcp]
        false .udp).targets ≠ [] →
      selPhase .srvP (jdlRunFrom s4Client 3 "example.com" [.udp, .tcp] [.udp, .tcp]
        false .udp).queries = [] ∧
      selPhase .addrP (jdlRunFrom s4Client 3 "example.com" [.udp, .tcp] [.udp, .tcp]
        false .udp).queries = []) ∧
    (selPhase .srvP (jdlRunFrom s4Client 3 "example.com" [.udp, .tcp] [.udp, .tcp]
        false .udp).targets ≠ [] →
      selPhase .addrP (jdlRunFrom s4Client 3 "example.com" [.udp, .tcp] [.udp, .tcp]
        false .udp).queries = []) :=
  c1_just_domain_fallback s4Client "example.com" [.udp, .tcp] [.udp, .tcp] false .udp 3
    (by decide)

/-- C10 witness: a concrete IP-host context is rejected and a concrete
domain-host context is accepted. -/
theorem c10_new_requires_domain_witness :
    JustDomainLookup.new
      { secure := false, transport := none, host := .ip "192.0.2.1", port := none,
        dns_client := nullClient, supported_transports := [.udp] } = none ∧
    (JustDomainLookup.new
      { secure := false, transport := none, host := .domain "example.com", port := none,
        dns_client := nullClient, supported_transports := [.udp] }).isSome = true := by
  constructor
  · exact c10_new_requires_domain.1 _ "192.0.2.1" rfl
  · exact (c10_new_requires_domain.2 _).mpr ⟨"example.com", rfl⟩

end RsipDns
